import Mathlib

/-!
Verification development for the Kconfig / Devicetree language-tooling core
(`evaluate.ts`, `kconfig.ts`, `propfile.ts`, `preprocessor.ts`, `dts.ts`,
`dtsTypes.ts`).  Each definition is a shallow embedding of the corresponding
TypeScript function; JavaScript-specific behaviour (truthiness, `===`,
short-circuit `&&`/`||` returning operands, thrown exceptions, unbounded
recursion) is modelled explicitly (`Except`, fuel for recursion that the
source performs on the call stack).  Numbers are modelled as integers with an
explicit `nan` value; the fractional part of JS doubles is outside the scope
of the modelled code paths (Kconfig values are int/hex/bool/tristate/string).
-/

/-- JS `\w` character class: `[A-Za-z0-9_]`. -/
def isWordChar (c : Char) : Bool :=
  (c ≥ 'a' && c ≤ 'z') || (c ≥ 'A' && c ≤ 'Z') || (c ≥ '0' && c ≤ '9') || c = '_'

/-- JS `\s` character class (the ASCII part used by the sources). -/
def isJsSpace (c : Char) : Bool :=
  c = ' ' || c = '\t' || c = '\n' || c = '\r' || c = '\x0b' || c = '\x0c'

/-- JS `.` in a regex does not match line terminators. -/
def isLineTerm (c : Char) : Bool := c = '\n' || c = '\r'

def isDigitCh (c : Char) : Bool := c ≥ '0' && c ≤ '9'

def isHexDigitCh (c : Char) : Bool :=
  isDigitCh c || (c ≥ 'a' && c ≤ 'f') || (c ≥ 'A' && c ≤ 'F')

/-- `List.isPrefixOf` on characters, spelled out (decidable, executable). -/
def strStarts : List Char → List Char → Bool
  | [], _ => true
  | _ :: _, [] => false
  | p :: ps, c :: cs => p = c && strStarts ps cs

/-- Value of a list of decimal digits. -/
def digitsVal (cs : List Char) : Nat :=
  cs.foldl (fun a c => a * 10 + (c.toNat - '0'.toNat)) 0

def hexDigitVal (c : Char) : Nat :=
  if isDigitCh c then c.toNat - '0'.toNat
  else if c ≥ 'a' && c ≤ 'f' then c.toNat - 'a'.toNat + 10
  else c.toNat - 'A'.toNat + 10

/-- Value of a list of hex digits. -/
def hexVal (cs : List Char) : Nat :=
  cs.foldl (fun a c => a * 16 + hexDigitVal c) 0

namespace KC

/-! ### `evaluate.ts`: tokens and the expression tokenizer -/

inductive TokenKind
  | VAR | NUMBER | STRING | TRISTATE | NOT | AND | OR
  | OPEN_PARENTHESIS | CLOSING_PARENTHESIS
  | EQUAL | NEQUAL | GREATER | LESS | GREATER_EQUAL | LESS_EQUAL
  | INVALID
deriving DecidableEq, Repr

structure Token where
  kind : TokenKind
  value : String
deriving DecidableEq, Repr

inductive Operator
  | VAR | LITERAL | NOT | AND | OR | PARENTHESIS
  | EQUAL | NEQUAL | GREATER | LESS | GREATER_EQUAL | LESS_EQUAL
  | UNKNOWN
deriving DecidableEq, Repr

/-- Errors: `expressionError` models a thrown `ExpressionError`;
`stackOverflow` models the JS stack overflowing on unbounded recursion
(e.g. `makeExpr([])` recursing on itself); `jsError` models any other
runtime `TypeError`; `fuel` marks exhausted modelling fuel. -/
inductive Err
  | expressionError (msg : String)
  | stackOverflow
  | jsError
  | fuel
deriving DecidableEq, Repr

/-- `operatorFromToken` of `evaluate.ts`. -/
def operatorFromToken (t : Token) : Operator :=
  match t.kind with
  | .VAR => .VAR
  | .NUMBER => .LITERAL
  | .STRING => .LITERAL
  | .TRISTATE => .LITERAL
  | .NOT => .NOT
  | .AND => .AND
  | .OR => .OR
  | .OPEN_PARENTHESIS => .PARENTHESIS
  | .CLOSING_PARENTHESIS => .PARENTHESIS
  | .EQUAL => .EQUAL
  | .NEQUAL => .NEQUAL
  | .GREATER => .GREATER
  | .LESS => .LESS
  | .GREATER_EQUAL => .GREATER_EQUAL
  | .LESS_EQUAL => .LESS_EQUAL
  | .INVALID => .UNKNOWN

/-- The `constant_tokens` table of `tokenizeExpression`, in source order. -/
def constantTokens : List (TokenKind × List Char) :=
  [ (.NEQUAL, ['!', '=']), (.NOT, ['!']), (.AND, ['&', '&']), (.OR, ['|', '|']),
    (.OPEN_PARENTHESIS, ['(']), (.CLOSING_PARENTHESIS, [')']),
    (.GREATER_EQUAL, ['>', '=']), (.LESS_EQUAL, ['<', '=']),
    (.EQUAL, ['=']), (.GREATER, ['>']), (.LESS, ['<']) ]

/-- The lazy string body match of `^"(.*?[^\\])"`: the shortest non-empty
body (no line terminators, matched by `.`) whose last character is not a
backslash, followed by a closing quote.  `acc` is the reversed body read so
far. -/
def scanStrBody (acc : List Char) : List Char → Option (List Char × List Char)
  | [] => none
  | c :: rest =>
    if c = '"' && (match acc with | p :: _ => p ≠ '\\' | [] => false) then
      some (acc.reverse, rest)
    else if isLineTerm c then none
    else scanStrBody (c :: acc) rest

/-- The scan of `^.*?([()])` used inside the `$(` macro branch: the earliest
parenthesis, all characters before it matched by `.` (no line terminators). -/
def scanToParen : List Char → Option (List Char × Char × List Char)
  | [] => none
  | c :: cs =>
    if c = '(' || c = ')' then some ([], c, cs)
    else if isLineTerm c then none
    else match scanToParen cs with
      | some (pre, p, rest) => some (c :: pre, p, rest)
      | none => none

/-- Inner loop of the `$(` branch of `tokenizeExpression`:
`while (level > 0 || expr.length !== 0) { ... }` consuming parenthesis
groups.  Returns the accumulated `value` and the remaining input. -/
def macroLoop (fuel : Nat) (level : Int) (value : List Char) (cs : List Char) :
    Except Err (List Char × List Char) :=
  match fuel with
  | 0 => .error .fuel
  | fuel + 1 =>
    if level > 0 || cs ≠ [] then
      match scanToParen cs with
      | none => .ok (value, cs)
      | some (pre, p, rest) =>
        let level' : Int := if p = '(' then level + 1 else level - 1
        macroLoop fuel level' (value ++ pre ++ [p]) rest
    else
      .ok (value, cs)

/-- One step of `tokenizeExpression`'s `while (expr.length > 0)` loop. -/
def tokenizeGo (fuel : Nat) (cs : List Char) (acc : List Token) :
    Except Err (List Token) :=
  match fuel with
  | 0 => .error .fuel
  | fuel + 1 =>
    match cs with
    | [] => .ok acc
    | c0 :: rest0 =>
      -- `^[\s\r\n\\]+`
      if isJsSpace c0 || c0 = '\\' then
        tokenizeGo fuel (rest0.dropWhile (fun c => isJsSpace c || c = '\\')) acc
      else
        match constantTokens.find? (fun t => strStarts t.2 cs) with
        | some t => tokenizeGo fuel (cs.drop t.2.length) (acc ++ [⟨t.1, String.mk t.2⟩])
        | none =>
          -- `^[ymn]\b`
          if (c0 = 'y' || c0 = 'm' || c0 = 'n') &&
              (match rest0 with | [] => true | c1 :: _ => !isWordChar c1) then
            tokenizeGo fuel rest0 (acc ++ [⟨.TRISTATE, String.mk [c0]⟩])
          -- `^(?:""|"(.*?[^\\])")`
          else if c0 = '"' then
            match rest0 with
            | '"' :: rest1 => tokenizeGo fuel rest1 (acc ++ [⟨.STRING, ""⟩])
            | _ =>
              match scanStrBody [] rest0 with
              | some (body, rest) =>
                tokenizeGo fuel rest (acc ++ [⟨.STRING, String.mk body⟩])
              | none => .error (.expressionError "Unknown symbol")
          -- `^(?:0x[\da-fA-F]+|[\-+]?\d+)`
          else if strStarts ['0', 'x'] cs && (match cs.drop 2 with
              | c2 :: _ => isHexDigitCh c2 | [] => false) then
            let hx := (cs.drop 2).takeWhile isHexDigitCh
            tokenizeGo fuel (cs.drop (2 + hx.length))
              (acc ++ [⟨.NUMBER, String.mk ('0' :: 'x' :: hx)⟩])
          else if isDigitCh c0 then
            let ds := cs.takeWhile isDigitCh
            tokenizeGo fuel (cs.drop ds.length) (acc ++ [⟨.NUMBER, String.mk ds⟩])
          else if (c0 = '-' || c0 = '+') && (match rest0 with
              | c1 :: _ => isDigitCh c1 | [] => false) then
            let ds := rest0.takeWhile isDigitCh
            tokenizeGo fuel (cs.drop (1 + ds.length))
              (acc ++ [⟨.NUMBER, String.mk (c0 :: ds)⟩])
          -- `^\w+`
          else if isWordChar c0 then
            let w := cs.takeWhile isWordChar
            tokenizeGo fuel (cs.drop w.length) (acc ++ [⟨.VAR, String.mk w⟩])
          -- `^\$\(`
          else if strStarts ['$', '('] cs then
            match macroLoop fuel 1 ['$', '('] (cs.drop 2) with
            | .error e => .error e
            | .ok (value, rest) =>
              tokenizeGo fuel rest (acc ++ [⟨.INVALID, String.mk value⟩])
          else
            .error (.expressionError "Unknown symbol")

/-- `tokenizeExpression` of `evaluate.ts`. -/
def tokenizeExpression (s : String) : Except Err (List Token) :=
  tokenizeGo (s.length + 1) s.toList []

/-! ### `makeExpr`: the expression tree builder -/

inductive Expression
  | mk (operator : Operator) (operands : List Expression) (varTok : Option Token)

def Expression.operator : Expression → Operator
  | .mk op _ _ => op

def Expression.operands : Expression → List Expression
  | .mk _ os _ => os

def Expression.varTok : Expression → Option Token
  | .mk _ _ v => v

/-- `tokenOrder` of `makeExpr`: "Tokens in order of precendence". -/
def tokenOrder : List TokenKind :=
  [ .VAR, .STRING, .NUMBER, .TRISTATE,
    .NOT, .OR, .AND,
    .GREATER_EQUAL, .LESS_EQUAL, .GREATER, .LESS,
    .NEQUAL, .EQUAL ]

/-- JS `Array.indexOf`: position in `tokenOrder`, `-1` when absent. -/
def scoreOf (k : TokenKind) : Int :=
  match tokenOrder.findIdx? (fun x => x = k) with
  | some i => (i : Int)
  | none => -1

structure Best where
  tok : Token
  index : Nat
  score : Int
deriving Repr

/-- The depth-tracking scan of `makeExpr` (`tokens.forEach(...)`), finding the
highest-scoring token at parenthesis depth 0.  `i` is the running index. -/
def bestScan (i : Nat) (depth : Int) (best : Option Best) :
    List Token → Except Err (Option Best × Int)
  | [] => .ok (best, depth)
  | t :: ts =>
    match t.kind with
    | .OPEN_PARENTHESIS => bestScan (i + 1) (depth + 1) best ts
    | .CLOSING_PARENTHESIS =>
      if depth - 1 < 0 then .error (.expressionError "Unmatched closing parenthesis")
      else bestScan (i + 1) (depth - 1) best ts
    | k =>
      if depth = 0 then
        let score := scoreOf k
        let best' :=
          match best with
          | none => some ⟨t, i, score⟩
          | some b => if score > b.score then some ⟨t, i, score⟩ else some b
        bestScan (i + 1) depth best' ts
      else
        bestScan (i + 1) depth best ts

/-- Expected operand count per operator (the inline arity switch in
`makeExpr`). -/
def operatorArity : Operator → Nat
  | .VAR => 0
  | .NOT => 1
  | .AND => 2
  | .OR => 2
  | .PARENTHESIS => 1
  | .EQUAL => 2
  | .NEQUAL => 2
  | .GREATER => 2
  | .LESS => 2
  | .GREATER_EQUAL => 2
  | .LESS_EQUAL => 2
  | .UNKNOWN => 0
  | .LITERAL => 0

/-- Map `makeExprF` over the operand groups. -/
def makeExprList (mk : List Token → Except Err Expression) :
    List (List Token) → Except Err (List Expression)
  | [] => .ok []
  | g :: gs => do
    let e ← mk g
    let es ← makeExprList mk gs
    .ok (e :: es)

/-- `makeExpr` of `evaluate.ts`, with fuel standing in for the JS call stack
(`makeExpr([])` recurses on itself forever in the source; here that path
bottoms out in `.error .stackOverflow`). -/
def makeExprF (fuel : Nat) (tokens : List Token) : Except Err Expression :=
  match fuel with
  | 0 => .error .stackOverflow
  | fuel + 1 => do
    let (best, depth) ← bestScan 0 0 none tokens
    if depth ≠ 0 then
      .error (.expressionError "Unmatched opening parethesis")
    else
      match best with
      | none =>
        -- the expression is surrounded by parentheses
        let e ← makeExprF fuel ((tokens.drop 1).take (tokens.length - 2))
        .ok (.mk .PARENTHESIS [e] none)
      | some best =>
        if best.tok.kind = .VAR then
          .ok (.mk .VAR [] (some best.tok))
        else if best.tok.kind = .STRING || best.tok.kind = .NUMBER ||
            best.tok.kind = .TRISTATE then
          .ok (.mk .LITERAL [] (some best.tok))
        else
          let groups : List (List Token) :=
            (if best.index > 0 then [tokens.take best.index] else []) ++
            (if best.index < tokens.length - 1 then [tokens.drop (best.index + 1)] else [])
          let op := operatorFromToken best.tok
          if operatorArity op ≠ groups.length then
            .error (.expressionError "Missing operator")
          else do
            let operands ← makeExprList (makeExprF fuel) groups
            .ok (.mk op operands none)

/-- `makeExpr` entry point (the source calls it directly on a token list). -/
def makeExpr (tokens : List Token) : Except Err Expression :=
  makeExprF (tokens.length + 1) tokens

/-- The constant-false expression built by `createExpression`'s catch branch:
`new Expression(Operator.LITERAL, [], {kind: TokenKind.TRISTATE, value: 'n'})`. -/
def constFalseExpression : Expression :=
  .mk .LITERAL [] (some ⟨.TRISTATE, "n"⟩)

/-- `createExpression` of `evaluate.ts`: `undefined` on empty input, a parsed
tree on success, the constant-false literal when tokenizing or tree
construction throws. -/
def createExpression (raw : String) : Option Expression :=
  if raw = "" then
    none
  else
    match tokenizeExpression raw >>= makeExpr with
    | .ok e => some e
    | .error _ => some constFalseExpression

/-! ### `kconfig.ts`: values with JavaScript semantics -/

/-- `ConfigValue = string | number | boolean`; `nan` is the JS `NaN` number
(`Number(...)` on a malformed string).  Only integral numbers are modelled:
the Kconfig sources produce int/hex values only. -/
inductive ConfigValue
  | str (s : String)
  | num (n : Int)
  | nan
  | bool (b : Bool)
deriving DecidableEq, Repr

/-- JS truthiness of a `ConfigValue`. -/
def truthy : ConfigValue → Bool
  | .str s => s ≠ ""
  | .num n => n ≠ 0
  | .nan => false
  | .bool b => b

/-- JS `===` on `ConfigValue` (`NaN === NaN` is false). -/
def jsStrictEq : ConfigValue → ConfigValue → Bool
  | .str a, .str b => a = b
  | .num a, .num b => a = b
  | .bool a, .bool b => a = b
  | _, _ => false

/-- JS whitespace trim. -/
def jsTrim (s : String) : String :=
  String.mk (((s.toList.dropWhile isJsSpace).reverse.dropWhile isJsSpace).reverse)

/-- JS `Number(string)` on the integer subset (`""` → 0, `0x...` hex,
optionally signed decimal); `none` is `NaN`. -/
def jsToNumber (s : String) : Option Int :=
  match (jsTrim s).toList with
  | [] => some 0
  | '0' :: 'x' :: rest =>
    if rest ≠ [] && rest.all isHexDigitCh then some (hexVal rest) else none
  | '0' :: 'X' :: rest =>
    if rest ≠ [] && rest.all isHexDigitCh then some (hexVal rest) else none
  | '-' :: rest =>
    if rest ≠ [] && rest.all isDigitCh then some (-(digitsVal rest : Int)) else none
  | '+' :: rest =>
    if rest ≠ [] && rest.all isDigitCh then some (digitsVal rest : Int) else none
  | t => if t.all isDigitCh then some (digitsVal t : Int) else none

def jsNumberValue (s : String) : ConfigValue :=
  match jsToNumber s with
  | some n => .num n
  | none => .nan

/-- JS `ToNumber` coercion of a `ConfigValue` (`none` = `NaN`). -/
def toNumCoerce : ConfigValue → Option Int
  | .num n => some n
  | .nan => none
  | .bool b => some (if b then 1 else 0)
  | .str s => jsToNumber s

/-- Lexicographic (code-unit) comparison, as JS `<` on two strings. -/
def charsLt : List Char → List Char → Bool
  | [], [] => false
  | [], _ :: _ => true
  | _ :: _, [] => false
  | a :: as, b :: bs => if a = b then charsLt as bs else a < b

/-- JS `<` (abstract relational comparison; `NaN` compares false). -/
def jsLt (a b : ConfigValue) : Bool :=
  match a, b with
  | .str x, .str y => charsLt x.toList y.toList
  | _, _ =>
    match toNumCoerce a, toNumCoerce b with
    | some x, some y => x < y
    | _, _ => false

def jsGt (a b : ConfigValue) : Bool := jsLt b a

/-- JS `<=` (`x <= y` is `!(y < x)` unless a `NaN` is involved). -/
def jsLe (a b : ConfigValue) : Bool :=
  match a, b with
  | .str x, .str y => !charsLt y.toList x.toList
  | _, _ =>
    match toNumCoerce a, toNumCoerce b with
    | some x, some y => x ≤ y
    | _, _ => false

def jsGe (a b : ConfigValue) : Bool := jsLe b a

/-! ### `kconfig.ts`: the data model -/

inductive CType
  | string | int | hex | bool | tristate
deriving DecidableEq, Repr

structure ConfigDefault where
  value : String
  condition : Option Expression

structure ConfigSelect where
  name : String
  condition : Option Expression

structure ConfigValueRange where
  min : String
  max : String
  condition : Option Expression

/-- The data a `ChoiceEntry` contributes to its `ChoiceScope`: member
configs (by name — the parser interns every `Config` in the repository),
the entry's `default` properties and the `optional` flag. -/
structure ChoiceData where
  name : String
  choices : List String
  defaults : List ConfigDefault
  optional : Bool

/-- The `Scope` tree (`RootScope` / `IfScope` / `MenuScope` / `ChoiceScope`).
An `IfScope` stores the raw expression text; its `expr` field is
`createExpression` of that text (computed in the constructor — a pure
function here, applied at use site). -/
inductive KScope
  | rootS
  | ifS (exprText : String) (parent : KScope)
  | menuS (prompt : String) (dependencies : List String) (parent : KScope)
  | choiceS (cdata : ChoiceData) (parent : KScope)

/-- `Scope.id`, built in the `Scope` constructor:
`type + '(' + name + ')'` prefixed by the parent chain. -/
def KScope.id : KScope → String
  | .rootS => "root(ROOT)"
  | .ifS e p => p.id ++ "::" ++ "if(" ++ e ++ ")"
  | .menuS n _ p => p.id ++ "::" ++ "menu(" ++ n ++ ")"
  | .choiceS cd p => p.id ++ "::" ++ "choice(" ++ cd.name ++ ")"

def KScope.parent? : KScope → Option KScope
  | .rootS => none
  | .ifS _ p => some p
  | .menuS _ _ p => some p
  | .choiceS _ p => some p

structure ConfigEntry where
  etype : Option CType
  text : Option String
  dependencies : List String
  selects : List ConfigSelect
  implys : List ConfigSelect
  defaults : List ConfigDefault
  ranges : List ConfigValueRange
  scope : KScope

structure Config where
  name : String
  entries : List ConfigEntry

/-- Truthiness of an optional string property (JS `e.text`): defined and
non-empty. -/
def textTruthy : Option String → Bool
  | some s => s ≠ ""
  | none => false

/-- `get type()`: `entries.find(e => e.type)?.type`. -/
def Config.ctype (c : Config) : Option CType :=
  (c.entries.find? (fun e => e.etype.isSome)).bind (·.etype)

/-- `get text()`: `entries.find(e => e.text)?.text`. -/
def Config.textGet (c : Config) : Option String :=
  (c.entries.find? (fun e => textTruthy e.text)).bind (·.text)

/-- `get mainEntry()`: `entries.find(e => e.text)`. -/
def Config.mainEntry (c : Config) : Option ConfigEntry :=
  c.entries.find? (fun e => textTruthy e.text)

/-- `get ranges()`: concatenation of all entries' ranges. -/
def Config.ranges (c : Config) : List ConfigValueRange :=
  c.entries.flatMap (·.ranges)

/-- Substring test, JS `String.includes`. -/
def hasSub (sub : List Char) : List Char → Bool
  | [] => strStarts sub []
  | c :: t => strStarts sub (c :: t) || hasSub sub t

/-- `hasDependency(name)`: some entry has a dependency string containing
`name` as a substring. -/
def Config.hasDependency (c : Config) (name : String) : Bool :=
  c.entries.any (fun e => e.dependencies.any (fun s => hasSub name.toList s.toList))

/-- `resolveValueString`. -/
def Config.resolveValueString (c : Config) (value : String) : ConfigValue :=
  match c.ctype with
  | some .bool | some .tristate => .bool (value = "y" || value = "m")
  | some .int | some .hex => jsNumberValue value
  | some .string => .str value
  | none => .bool false

/-- `ConfigOverride` (the `config` field carried by name: the parser interns
all `Config` objects by name in the repository). -/
structure COverride where
  name : String
  value : String
  line : Option Nat
deriving DecidableEq, Repr

/-- `EvalContext`: overrides plus the `evaluated` memoization map, keyed by
config name or scope id. -/
structure Ctx where
  overrides : List COverride
  evaluated : List (String × ConfigValue)

/-- `EvalContext.resolve`. -/
def Ctx.resolve (ctx : Ctx) (key : String) : Option ConfigValue :=
  (ctx.evaluated.find? (fun p => p.1 = key)).map (·.2)

def assocSet (l : List (String × ConfigValue)) (k : String) (v : ConfigValue) :
    List (String × ConfigValue) :=
  match l with
  | [] => [(k, v)]
  | p :: rest => if p.1 = k then (k, v) :: rest else p :: assocSet rest k v

/-- `EvalContext.register` (mutation modelled by returning the new context). -/
def Ctx.register (ctx : Ctx) (key : String) (v : ConfigValue) : Ctx :=
  { ctx with evaluated := assocSet ctx.evaluated key v }

/-- `Repository`: the symbol table (insertion-ordered, as a JS object of
string keys). -/
structure Repo where
  configs : List (String × Config)

def Repo.lookup (repo : Repo) (name : String) : Option Config :=
  (repo.configs.find? (fun p => p.1 = name)).map (·.2)

/-- `get configList()`: `Object.values(this.configs)`. -/
def Repo.configList (repo : Repo) : List Config :=
  repo.configs.map (·.2)

/-- Truthiness of `missingDependency`'s result (a string or `undefined`). -/
def truthyStrOpt : Option String → Bool
  | some s => s ≠ ""
  | none => false

/-- First branch of `ChoiceEntry.chosen`: the first choice member for which
some override targets it with a truthy `resolveValueString` (pure: no
context mutation). -/
def chosenOverrideFind (repo : Repo) (ctx : Ctx) : List String → Option String
  | [] => none
  | cn :: rest =>
    if ctx.overrides.any (fun o => o.name = cn &&
        truthy (match repo.lookup cn with
          | some cc => cc.resolveValueString o.value
          | none => .bool false)) then
      some cn
    else chosenOverrideFind repo ctx rest

/-- Anchored match of `^\s*(0x[\da-fA-F]+|[\-+]?\d+)\s*$` on the trimmed
characters (used by `evaluateSymbol`). -/
def isNumSymbol (cs : List Char) : Bool :=
  match cs with
  | '0' :: 'x' :: rest => rest ≠ [] && rest.all isHexDigitCh
  | '-' :: rest => rest ≠ [] && rest.all isDigitCh
  | '+' :: rest => rest ≠ [] && rest.all isDigitCh
  | _ => cs ≠ [] && cs.all isDigitCh

mutual

/-- `Config.evaluate` (`kconfig.ts`), rule for rule: memo lookup, dependency
gate, active-typed-entry gate, override, default, select, choice, false
value.  Fuel stands in for the JS call stack. -/
def configEvaluate (fuel : Nat) (repo : Repo) (c : Config) (ctx : Ctx) :
    Except Err (ConfigValue × Ctx) :=
  match fuel with
  | 0 => .error .fuel
  | fuel + 1 =>
    match ctx.resolve c.name with
    | some v => .ok (v, ctx)
    | none => do
      let (md, ctx) ← missingDependencyE fuel repo c ctx
      if truthyStrOpt md then
        .ok (.bool false, ctx.register c.name (.bool false))
      else do
        let (act, ctx) ← entriesSomeTypeActive fuel repo c.entries ctx
        if !act then
          .ok (.bool false, ctx.register c.name (.bool false))
        else
          match ctx.overrides.find? (fun o => o.name = c.name) with
          | some o =>
            let v := c.resolveValueString o.value
            .ok (v, ctx.register c.name v)
          | none => do
            let (dflt, ctx) ← defaultValueE fuel repo c ctx
            match dflt with
            | some v => .ok (v, ctx.register c.name v)
            | none =>
              if c.ctype = some .bool || c.ctype = some .tristate then do
                let (sel, ctx) ← selectorTopE fuel repo c ctx
                if sel.isSome then
                  .ok (.bool true, ctx.register c.name (.bool true))
                else
                  match c.entries.head? with
                  | none => .error .jsError   -- `this.entries[0].scope` on no entry
                  | some e0 =>
                    match e0.scope with
                    | .choiceS cd _ => do
                      let (ch, ctx) ← chosenE fuel repo cd ctx
                      if ch = some c.name then
                        .ok (.bool true, ctx)   -- `return true;` — not registered
                      else do
                        let (fv, ctx) ← falseValueE fuel repo c ctx
                        .ok (fv, ctx.register c.name fv)
                    | _ => do
                      let (fv, ctx) ← falseValueE fuel repo c ctx
                      .ok (fv, ctx.register c.name fv)
              else do
                let (fv, ctx) ← falseValueE fuel repo c ctx
                .ok (fv, ctx.register c.name fv)

/-- `Config.missingDependency`:
`this.mainEntry?.dependencies.find(d => !resolveExpression(d, ctx))`. -/
def missingDependencyE (fuel : Nat) (repo : Repo) (c : Config) (ctx : Ctx) :
    Except Err (Option String × Ctx) :=
  match fuel with
  | 0 => .error .fuel
  | fuel + 1 =>
    match c.mainEntry with
    | none => .ok (none, ctx)
    | some e => depsFind fuel repo e.dependencies ctx

/-- `deps.find(d => !resolveExpression(d, ctx))`. -/
def depsFind (fuel : Nat) (repo : Repo) (deps : List String) (ctx : Ctx) :
    Except Err (Option String × Ctx) :=
  match fuel with
  | 0 => .error .fuel
  | fuel + 1 =>
    match deps with
    | [] => .ok (none, ctx)
    | d :: rest => do
      let (v, ctx) ← resolveExpressionE fuel repo d ctx
      if !truthy v then .ok (some d, ctx) else depsFind fuel repo rest ctx

/-- `deps.every(d => resolveExpression(d, ctx))`. -/
def depsEvery (fuel : Nat) (repo : Repo) (deps : List String) (ctx : Ctx) :
    Except Err (Bool × Ctx) :=
  match fuel with
  | 0 => .error .fuel
  | fuel + 1 =>
    match deps with
    | [] => .ok (true, ctx)
    | d :: rest => do
      let (v, ctx) ← resolveExpressionE fuel repo d ctx
      if !truthy v then .ok (false, ctx) else depsEvery fuel repo rest ctx

/-- `this.entries.some(e => e.type && e.isActive(ctx))`. -/
def entriesSomeTypeActive (fuel : Nat) (repo : Repo) (es : List ConfigEntry)
    (ctx : Ctx) : Except Err (Bool × Ctx) :=
  match fuel with
  | 0 => .error .fuel
  | fuel + 1 =>
    match es with
    | [] => .ok (false, ctx)
    | e :: rest =>
      if e.etype.isSome then do
        let (a, ctx) ← isActiveE fuel repo e ctx
        if a then .ok (true, ctx) else entriesSomeTypeActive fuel repo rest ctx
      else entriesSomeTypeActive fuel repo rest ctx

/-- `ConfigEntry.isActive`:
`this.dependencies.every(...) && this.scope.evaluate(ctx)`. -/
def isActiveE (fuel : Nat) (repo : Repo) (e : ConfigEntry) (ctx : Ctx) :
    Except Err (Bool × Ctx) :=
  match fuel with
  | 0 => .error .fuel
  | fuel + 1 => do
    let (every, ctx) ← depsEvery fuel repo e.dependencies ctx
    if !every then .ok (false, ctx)
    else scopeEvaluate fuel repo e.scope ctx

/-- `Config.activeEntries`: `entries.filter(e => e.isActive(ctx))`. -/
def activeEntriesE (fuel : Nat) (repo : Repo) (es : List ConfigEntry)
    (ctx : Ctx) : Except Err (List ConfigEntry × Ctx) :=
  match fuel with
  | 0 => .error .fuel
  | fuel + 1 =>
    match es with
    | [] => .ok ([], ctx)
    | e :: rest => do
      let (a, ctx) ← isActiveE fuel repo e ctx
      let (l, ctx) ← activeEntriesE fuel repo rest ctx
      .ok (if a then e :: l else l, ctx)

/-- `Scope.evaluate`: memo lookup by scope id, then
`this.resolve(ctx) && (this.parent?.evaluate(ctx) ?? true)`, registered. -/
def scopeEvaluate (fuel : Nat) (repo : Repo) (s : KScope) (ctx : Ctx) :
    Except Err (Bool × Ctx) :=
  match fuel with
  | 0 => .error .fuel
  | fuel + 1 =>
    match ctx.resolve s.id with
    | some v => .ok (truthy v, ctx)
    | none => do
      let (r, ctx) ← scopeResolve fuel repo s ctx
      if r then
        match s.parent? with
        | some p => do
          let (pr, ctx) ← scopeEvaluate fuel repo p ctx
          .ok (pr, ctx.register s.id (.bool pr))
        | none => .ok (true, ctx.register s.id (.bool true))
      else
        .ok (false, ctx.register s.id (.bool false))

/-- The subclass `resolve` methods: `RootScope`/`ChoiceScope` are `true`,
`IfScope` is `!!(this.expr?.solve(ctx) ?? true)`, `MenuScope` is
`dependencies.every(d => resolveExpression(d, ctx))`. -/
def scopeResolve (fuel : Nat) (repo : Repo) (s : KScope) (ctx : Ctx) :
    Except Err (Bool × Ctx) :=
  match fuel with
  | 0 => .error .fuel
  | fuel + 1 =>
    match s with
    | .rootS => .ok (true, ctx)
    | .choiceS _ _ => .ok (true, ctx)
    | .ifS etext _ =>
      match createExpression etext with
      | none => .ok (true, ctx)
      | some ex => do
        let (v, ctx) ← solveE fuel repo ex ctx
        .ok (truthy v, ctx)
    | .menuS _ deps _ => depsEvery fuel repo deps ctx

/-- `resolveExpression`: tokenize, build and solve (throws propagate). -/
def resolveExpressionE (fuel : Nat) (repo : Repo) (raw : String) (ctx : Ctx) :
    Except Err (ConfigValue × Ctx) :=
  match fuel with
  | 0 => .error .fuel
  | fuel + 1 =>
    match tokenizeExpression raw >>= makeExpr with
    | .error e => .error e
    | .ok ex => solveE fuel repo ex ctx

/-- `Expression.solve`, with JS `&&`/`||` returning an operand and `===`
comparisons; a `VAR` looks the symbol up in the repository and recursively
evaluates it (`unknown → false`). -/
def solveE (fuel : Nat) (repo : Repo) (e : Expression) (ctx : Ctx) :
    Except Err (ConfigValue × Ctx) :=
  match fuel with
  | 0 => .error .fuel
  | fuel + 1 =>
    match e with
    | .mk op operands varTok =>
      match op with
      | .VAR =>
        match varTok with
        | none => .error .jsError
        | some v =>
          match repo.lookup v.value with
          | none => .ok (.bool false, ctx)
          | some cfg => configEvaluate fuel repo cfg ctx
      | .LITERAL =>
        match varTok with
        | none => .error (.expressionError "Parser error")
        | some v =>
          if v.kind = .STRING then .ok (.str v.value, ctx)
          else if v.kind = .NUMBER then .ok (jsNumberValue v.value, ctx)
          else if v.kind = .TRISTATE then
            .ok (.bool (v.value = "y" || v.value = "m"), ctx)
          else .error (.expressionError "Unknown literal")
      | .NOT =>
        match operands with
        | o0 :: _ => do
          let (v, ctx) ← solveE fuel repo o0 ctx
          .ok (.bool (!truthy v), ctx)
        | [] => .error .jsError
      | .AND =>
        match operands with
        | o0 :: rest => do
          let (lhs, ctx) ← solveE fuel repo o0 ctx
          if !truthy lhs then .ok (lhs, ctx)
          else
            match rest with
            | o1 :: _ => solveE fuel repo o1 ctx
            | [] => .error .jsError
        | [] => .error .jsError
      | .OR =>
        match operands with
        | o0 :: rest => do
          let (lhs, ctx) ← solveE fuel repo o0 ctx
          if truthy lhs then .ok (lhs, ctx)
          else
            match rest with
            | o1 :: _ => solveE fuel repo o1 ctx
            | [] => .error .jsError
        | [] => .error .jsError
      | .PARENTHESIS =>
        match operands with
        | o0 :: _ => solveE fuel repo o0 ctx
        | [] => .error .jsError
      | .EQUAL => solveCmp fuel repo operands ctx (fun a b => .bool (jsStrictEq a b))
      | .NEQUAL => solveCmp fuel repo operands ctx (fun a b => .bool (!jsStrictEq a b))
      | .GREATER => solveCmp fuel repo operands ctx (fun a b => .bool (jsGt a b))
      | .LESS => solveCmp fuel repo operands ctx (fun a b => .bool (jsLt a b))
      | .GREATER_EQUAL => solveCmp fuel repo operands ctx (fun a b => .bool (jsGe a b))
      | .LESS_EQUAL => solveCmp fuel repo operands ctx (fun a b => .bool (jsLe a b))
      | .UNKNOWN => .ok (.bool false, ctx)

/-- Shared operand evaluation of the comparison cases of `solve`
(both operands evaluated left to right, no short circuit). -/
def solveCmp (fuel : Nat) (repo : Repo) (operands : List Expression) (ctx : Ctx)
    (k : ConfigValue → ConfigValue → ConfigValue) : Except Err (ConfigValue × Ctx) :=
  match fuel with
  | 0 => .error .fuel
  | fuel + 1 =>
    match operands with
    | o0 :: rest => do
      let (lhs, ctx) ← solveE fuel repo o0 ctx
      match rest with
      | o1 :: _ => do
        let (rhs, ctx) ← solveE fuel repo o1 ctx
        .ok (k lhs rhs, ctx)
      | [] => .error .jsError
    | [] => .error .jsError

/-- `Config.defaultValue`: scan active entries for the first `default` whose
condition is absent or solves to `true` (strict `=== true`), then resolve
its value expression. -/
def defaultValueE (fuel : Nat) (repo : Repo) (c : Config) (ctx : Ctx) :
    Except Err (Option ConfigValue × Ctx) :=
  match fuel with
  | 0 => .error .fuel
  | fuel + 1 => do
    let (aes, ctx) ← activeEntriesE fuel repo c.entries ctx
    let (dflt, ctx) ← dfltScan fuel repo aes ctx
    match dflt with
    | none => .ok (none, ctx)
    | some d => do
      let (v, ctx) ← resolveExpressionE fuel repo d.value ctx
      .ok (some v, ctx)

/-- `.some(e => { dflt = e.defaults.find(...); return dflt !== undefined })`. -/
def dfltScan (fuel : Nat) (repo : Repo) (es : List ConfigEntry) (ctx : Ctx) :
    Except Err (Option ConfigDefault × Ctx) :=
  match fuel with
  | 0 => .error .fuel
  | fuel + 1 =>
    match es with
    | [] => .ok (none, ctx)
    | e :: rest => do
      let (d, ctx) ← defaultsFindStrict fuel repo e.defaults ctx
      match d with
      | some d => .ok (some d, ctx)
      | none => dfltScan fuel repo rest ctx

/-- `defaults.find(d => !d.condition || d.condition.solve(ctx) === true)`. -/
def defaultsFindStrict (fuel : Nat) (repo : Repo) (ds : List ConfigDefault)
    (ctx : Ctx) : Except Err (Option ConfigDefault × Ctx) :=
  match fuel with
  | 0 => .error .fuel
  | fuel + 1 =>
    match ds with
    | [] => .ok (none, ctx)
    | d :: rest =>
      match d.condition with
      | none => .ok (some d, ctx)
      | some cond => do
        let (v, ctx) ← solveE fuel repo cond ctx
        if v = .bool true then .ok (some d, ctx)
        else defaultsFindStrict fuel repo rest ctx

/-- `Config.selector`: `undefined` unless bool/tristate, else the first
config in `configList` that is bool/tristate, does not itself depend on this
symbol, and has a non-empty `selects(ctx, name)`. -/
def selectorTopE (fuel : Nat) (repo : Repo) (c : Config) (ctx : Ctx) :
    Except Err (Option Config × Ctx) :=
  match fuel with
  | 0 => .error .fuel
  | fuel + 1 =>
    if c.ctype ≠ some .bool && c.ctype ≠ some .tristate then .ok (none, ctx)
    else selectorFind fuel repo c.name repo.configList ctx

/-- The `configList.find(...)` loop of `Config.selector`. -/
def selectorFind (fuel : Nat) (repo : Repo) (selfName : String)
    (cands : List Config) (ctx : Ctx) : Except Err (Option Config × Ctx) :=
  match fuel with
  | 0 => .error .fuel
  | fuel + 1 =>
    match cands with
    | [] => .ok (none, ctx)
    | c2 :: rest =>
      if (c2.ctype = some .bool || c2.ctype = some .tristate) &&
          !c2.hasDependency selfName then do
        let (sel, ctx) ← selectsE fuel repo c2 selfName ctx
        if sel.length > 0 then .ok (some c2, ctx)
        else selectorFind fuel repo selfName rest ctx
      else selectorFind fuel repo selfName rest ctx

/-- `Config.selects(ctx, name)`: matching `select`/`imply` targets of all
entries, emptied when the selecting config itself evaluates falsy. -/
def selectsE (fuel : Nat) (repo : Repo) (c2 : Config) (name : String)
    (ctx : Ctx) : Except Err (List String × Ctx) :=
  match fuel with
  | 0 => .error .fuel
  | fuel + 1 => do
    let (cfgs, ctx) ← selectsEntries fuel repo c2.entries name ctx
    if cfgs.length > 0 then do
      let (ev, ctx) ← configEvaluate fuel repo c2 ctx
      if !truthy ev then .ok ([], ctx) else .ok (cfgs, ctx)
    else .ok (cfgs, ctx)

/-- The per-entry `forEach` of `Config.selects`. -/
def selectsEntries (fuel : Nat) (repo : Repo) (es : List ConfigEntry)
    (name : String) (ctx : Ctx) : Except Err (List String × Ctx) :=
  match fuel with
  | 0 => .error .fuel
  | fuel + 1 =>
    match es with
    | [] => .ok ([], ctx)
    | e :: rest => do
      let (l1, ctx) ← selItems fuel repo e.selects name false ctx
      let (l2, ctx) ← selItems fuel repo e.implys name true ctx
      let (l3, ctx) ← selectsEntries fuel repo rest name ctx
      .ok (l1 ++ l2 ++ l3, ctx)

/-- Filter of `selects` (and, with `implyMode`, of `implys`, which is also
gated on no override naming the target), keeping items whose name matches
and whose condition is absent or solves truthy, mapped through the symbol
table. -/
def selItems (fuel : Nat) (repo : Repo) (items : List ConfigSelect)
    (name : String) (implyMode : Bool) (ctx : Ctx) : Except Err (List String × Ctx) :=
  match fuel with
  | 0 => .error .fuel
  | fuel + 1 =>
    match items with
    | [] => .ok ([], ctx)
    | s :: rest =>
      if s.name = name &&
          (!implyMode || !ctx.overrides.any (fun o => o.name = name)) then do
        let (keep, ctx) ←
          match s.condition with
          | none => (.ok (true, ctx) : Except Err (Bool × Ctx))
          | some cond => do
            let (v, ctx) ← solveE fuel repo cond ctx
            .ok (truthy v, ctx)
        let (l, ctx) ← selItems fuel repo rest name implyMode ctx
        if keep && (repo.lookup s.name).isSome then .ok (s.name :: l, ctx)
        else .ok (l, ctx)
      else selItems fuel repo rest name implyMode ctx

/-- `ChoiceEntry.chosen`: override hit, else first satisfied `default`
matched against the member names, else the first member unless optional. -/
def chosenE (fuel : Nat) (repo : Repo) (cd : ChoiceData) (ctx : Ctx) :
    Except Err (Option String × Ctx) :=
  match fuel with
  | 0 => .error .fuel
  | fuel + 1 =>
    match chosenOverrideFind repo ctx cd.choices with
    | some cn => .ok (some cn, ctx)
    | none => do
      let (dflt, ctx) ← defaultsFindTruthy fuel repo cd.defaults ctx
      match dflt with
      | some d => .ok (cd.choices.find? (fun cn => cn = jsTrim d.value), ctx)
      | none =>
        if !cd.optional && cd.choices.length > 0 then .ok (cd.choices.head?, ctx)
        else .ok (none, ctx)

/-- `defaults.find(d => !d.condition || d.condition.solve(ctx))` (truthy,
without the strict `=== true` of `defaultValue`). -/
def defaultsFindTruthy (fuel : Nat) (repo : Repo) (ds : List ConfigDefault)
    (ctx : Ctx) : Except Err (Option ConfigDefault × Ctx) :=
  match fuel with
  | 0 => .error .fuel
  | fuel + 1 =>
    match ds with
    | [] => .ok (none, ctx)
    | d :: rest =>
      match d.condition with
      | none => .ok (some d, ctx)
      | some cond => do
        let (v, ctx) ← solveE fuel repo cond ctx
        if truthy v then .ok (some d, ctx)
        else defaultsFindTruthy fuel repo rest ctx

/-- `Config.falseValue`. -/
def falseValueE (fuel : Nat) (repo : Repo) (c : Config) (ctx : Ctx) :
    Except Err (ConfigValue × Ctx) :=
  match fuel with
  | 0 => .error .fuel
  | fuel + 1 =>
    if c.textGet = none then .ok (.bool false, ctx)
    else
      match c.ctype with
      | some .bool => .ok (.bool false, ctx)
      | some .tristate => .ok (.bool false, ctx)
      | some .hex | some .int =>
        if (Config.ranges c).length > 0 then do
          let (mm, ctx) ← getRangeE fuel repo c ctx
          .ok (mm.1, ctx)
        else .ok (.num 0, ctx)
      | some .string => .ok (.str "", ctx)
      | none => .ok (.bool false, ctx)

/-- `Config.getRange`: the first matching range on an active entry, with
`evaluateSymbol` on its bounds, else `MIN/MAX_SAFE_INTEGER`. -/
def getRangeE (fuel : Nat) (repo : Repo) (c : Config) (ctx : Ctx) :
    Except Err ((ConfigValue × ConfigValue) × Ctx) :=
  match fuel with
  | 0 => .error .fuel
  | fuel + 1 => do
    let (aes, ctx) ← activeEntriesE fuel repo c.entries ctx
    let (rng, ctx) ← rangeScan fuel repo aes ctx
    match rng with
    | some r => do
      let (mn, ctx) ← evaluateSymbolE fuel repo r.min ctx
      let (mx, ctx) ← evaluateSymbolE fuel repo r.max ctx
      .ok ((mn, mx), ctx)
    | none => .ok ((.num (-(2 ^ 53 - 1)), .num (2 ^ 53 - 1)), ctx)

/-- The `activeEntries(ctx).find(e => { range = ... })` scan of `getRange`. -/
def rangeScan (fuel : Nat) (repo : Repo) (es : List ConfigEntry) (ctx : Ctx) :
    Except Err (Option ConfigValueRange × Ctx) :=
  match fuel with
  | 0 => .error .fuel
  | fuel + 1 =>
    match es with
    | [] => .ok (none, ctx)
    | e :: rest => do
      let (r, ctx) ← rangesFind fuel repo e.ranges ctx
      match r with
      | some r => .ok (some r, ctx)
      | none => rangeScan fuel repo rest ctx

/-- `ranges.find(r => r.condition === undefined || r.condition.solve(ctx)
=== true)`. -/
def rangesFind (fuel : Nat) (repo : Repo) (rs : List ConfigValueRange)
    (ctx : Ctx) : Except Err (Option ConfigValueRange × Ctx) :=
  match fuel with
  | 0 => .error .fuel
  | fuel + 1 =>
    match rs with
    | [] => .ok (none, ctx)
    | r :: rest =>
      match r.condition with
      | none => .ok (some r, ctx)
      | some cond => do
        let (v, ctx) ← solveE fuel repo cond ctx
        if v = .bool true then .ok (some r, ctx)
        else rangesFind fuel repo rest ctx

/-- `Config.evaluateSymbol`: literal number, tristate literal, or symbol
lookup and recursive evaluation. -/
def evaluateSymbolE (fuel : Nat) (repo : Repo) (name : String) (ctx : Ctx) :
    Except Err (ConfigValue × Ctx) :=
  match fuel with
  | 0 => .error .fuel
  | fuel + 1 =>
    let t := (jsTrim name).toList
    if isNumSymbol t then .ok (jsNumberValue name, ctx)
    else if t = ['y'] || t = ['m'] || t = ['n'] then
      .ok (.bool (t ≠ ['n']), ctx)
    else
      match repo.lookup name with
      | none => .ok (.bool false, ctx)
      | some sym => configEvaluate fuel repo sym ctx

end

/-! ### `propfile.ts`: the bounded dependency auto-fix search -/

/-- The variable collection of `PropFile.getDependencyOverrides`: `VAR`
tokens resolved through the symbol table, kept when defined with a truthy
prompt text and a bool/tristate type. -/
def collectVariables (repo : Repo) (tokens : List Token) : List Config :=
  ((tokens.filter (fun t => t.kind = .VAR)).filterMap
      (fun t => repo.lookup t.value)).filter
    (fun c => textTruthy c.textGet &&
      (c.ctype = some .bool || c.ctype = some .tristate))

/-- One `forEach` body of the satisfying-assignment processing, once an
override entry was built: recurse into the entry's config's own missing
dependency (`recur`, the recursive `getDependencyOverrides` call,
de-duplicating against what is already queued), then push the entry. -/
def replProcessP (fuel : Nat)
    (recur : String → Ctx → Except Err (List COverride × Ctx))
    (repo : Repo) (cfg : Config) (entry : COverride)
    (entries : List COverride) (ctx : Ctx) :
    Except Err (List COverride × Ctx) := do
  let (md, ctx) ← missingDependencyE fuel repo cfg ctx
  match md with
  | some entryDep =>
    if entryDep ≠ "" then do
      let (sub, ctx) ← recur entryDep ctx
      let adds := sub.filter (fun e =>
        !(entries.any (fun ex => e.name = ex.name && e.value = ex.value)))
      .ok (entries ++ adds ++ [entry], ctx)
    else .ok (entries ++ [entry], ctx)
  | none => .ok (entries ++ [entry], ctx)

/-- The `replacements.forEach(r => ...)` of the first satisfying
assignment: build an override per replacement (skipping ones equal to an
existing `.conf` line). -/
def replLoopP (fuel : Nat)
    (recur : String → Ctx → Except Err (List COverride × Ctx))
    (repo : Repo) (conf : List COverride) :
    List (String × String) → List COverride → Ctx →
    Except Err (List COverride × Ctx)
  | [], entries, ctx => .ok (entries, ctx)
  | r :: rest, entries, ctx =>
    match conf.find? (fun c => r.1 = c.name) with
    | none =>
      match repo.lookup r.1 with
      | none => .error .jsError   -- `entry.config` would be `undefined`
      | some cfg => do
        let (entries, ctx) ← replProcessP fuel recur repo cfg ⟨r.1, r.2, none⟩ entries ctx
        replLoopP fuel recur repo conf rest entries ctx
    | some dup =>
      if dup.value ≠ r.2 then
        match repo.lookup dup.name with
        | none => .error .jsError
        | some cfg => do
          let (entries, ctx) ←
            replProcessP fuel recur repo cfg ⟨dup.name, r.2, dup.line⟩ entries ctx
          replLoopP fuel recur repo conf rest entries ctx
      else replLoopP fuel recur repo conf rest entries ctx

/-- The replaced token list of one bitmap assignment. -/
def replaceTokens (replacements : List (String × String)) (tokens : List Token) :
    List Token :=
  tokens.map (fun t =>
    if t.kind = .VAR then
      match replacements.find? (fun r => r.1 = t.value) with
      | some r => if r.2 ≠ "" then (⟨.TRISTATE, r.2⟩ : Token) else t
      | none => t
    else t)

/-- The replacement list of one bitmap:
`variables.map((v, i) => ({name: v.name, value: (bitmap & (1 << i)) ? 'y' : 'n'}))`. -/
def replacementsOf (vars : List Config) (bitmap : Nat) : List (String × String) :=
  vars.enum.map (fun p => (p.2.name, if bitmap.testBit p.1 then "y" else "n"))

/-- The `for (bitmap = 0; bitmap < (1 << n); bitmap++)` loop of
`getDependencyOverrides`, iterating on the remaining count
(`count = 2^n - bitmap`, so the loop guard `bitmap < 2^n` is `count > 0`):
replace the variables' `VAR` tokens by `y`/`n` tristate literals per the
bitmap, solve, and stop at the first truthy assignment. -/
def bitmapGo (fuel : Nat)
    (recur : String → Ctx → Except Err (List COverride × Ctx))
    (repo : Repo) (conf : List COverride) (tokens : List Token)
    (vars : List Config) : Nat → Nat → Ctx → Except Err (List COverride × Ctx)
  | 0, _, ctx => .ok ([], ctx)
  | count + 1, bitmap, ctx =>
    let replacements := replacementsOf vars bitmap
    match makeExpr (replaceTokens replacements tokens) with
    | .error e => .error e
    | .ok ex => do
      let (v, ctx) ← solveE fuel repo ex ctx
      if truthy v then replLoopP fuel recur repo conf replacements [] ctx
      else bitmapGo fuel recur repo conf tokens vars count (bitmap + 1) ctx

/-- `PropFile.getDependencyOverrides` (`propfile.ts`): tokenize the unmet
dependency, collect its bool/tristate variables, and — only when
`0 < variables.length < 4` — enumerate all `2^n` assignments.  Fuel is
consumed once per (stack-)recursive `getDependencyOverrides` call; the
loops are iterative in the source. -/
def getDependencyOverridesE : Nat → Repo → List COverride → String → Ctx →
    Except Err (List COverride × Ctx)
  | 0, _, _, _, _ => .error .fuel
  | fuel + 1, repo, conf, missingDep, ctx =>
    match tokenizeExpression missingDep with
    | .error e => .error e
    | .ok tokens =>
      let vars := collectVariables repo tokens
      if vars.length > 0 && vars.length < 4 then
        bitmapGo fuel (getDependencyOverridesE fuel repo conf) repo conf tokens
          vars (2 ^ vars.length) 0 ctx
      else .ok ([], ctx)

end KC

namespace PP

/-! ### `preprocessor.ts`: defines, macro expansion and back-mapping -/

/-- A `Define`; `undef` models the `undef?: Line` marker (`isDefined` is its
absence).  The location-dependent built-ins (`__LINE__` …) are not involved
in the modelled claims, so `value(loc)` is the stored value. -/
structure Define where
  name : String
  value : String
  args : Option (List String)
  undef : Bool
deriving DecidableEq, Repr

/-- The `Defines` table (a JS object keyed by name, insertion-ordered). -/
abbrev Defines := List (String × Define)

def lookupD (ds : Defines) (n : String) : Option Define :=
  (ds.find? (fun p => p.1 = n)).map (·.2)

def setD (ds : Defines) (n : String) (d : Define) : Defines :=
  match ds with
  | [] => [(n, d)]
  | p :: rest => if p.1 = n then (n, d) :: rest else p :: setD rest n d

/-- `MacroInstance`: the raw text replaced, the expansion inserted, and the
start offset (the `macro` back-pointer is not needed by `replace`/`rawPos`). -/
structure MacroInstance where
  raw : String
  insert : String
  start : Nat
deriving DecidableEq, Repr

/-- Insertion sort by descending `start` (`sort((a, b) => b.start - a.start)`). -/
def insertByStartDesc (m : MacroInstance) : List MacroInstance → List MacroInstance
  | [] => [m]
  | x :: xs => if m.start ≥ x.start then m :: x :: xs else x :: insertByStartDesc m xs

def sortByStartDesc : List MacroInstance → List MacroInstance
  | [] => []
  | x :: xs => insertByStartDesc x (sortByStartDesc xs)

/-- `replace(text, macros)`: splice every expansion back to front. -/
def replace (text : String) (ms : List MacroInstance) : String :=
  String.mk ((sortByStartDesc ms).foldl
    (fun cs m => cs.take m.start ++ m.insert.toList ++ cs.drop (m.start + m.raw.length))
    text.toList)

/-- One `text.match(/^([^(),]*)(.)/)` step of `parseArgs`: greedy run of
non-delimiters, then one character, backtracking so that the last character
is matched by `.` (which excludes line terminators).  Returns the whole
match, the final character and the rest. -/
def paramMatch (cs : List Char) : Option (List Char × Char × List Char) :=
  let run := cs.takeWhile (fun c => c ≠ '(' && c ≠ ')' && c ≠ ',')
  match cs.drop run.length with
  | d :: tail => some (run ++ [d], d, tail)
  | [] => backtrackDot run
where
  /-- The backtracking tail case: split off the last non-line-terminator
  character. -/
  backtrackDot : List Char → Option (List Char × Char × List Char)
    | [] => none
    | c :: cs =>
      match backtrackDot cs with
      | some (m0, d, rest) => some (c :: m0, d, rest)
      | none => if !isLineTerm c then some ([c], c, cs) else none

/-- The `while (text.length)` loop of `parseArgs`. -/
def parseArgsLoop (fuel : Nat) (depth : Int) (arg raw : List Char)
    (args : List String) (cs : List Char) : List String × List Char :=
  match fuel with
  | 0 => ([], raw)
  | fuel + 1 =>
    match cs with
    | [] => if depth ≠ 0 then ([], raw) else (args, raw)
    | _ =>
      match paramMatch cs with
      | none => ([], raw)
      | some (m0, m2, rest) =>
        let raw := raw ++ m0
        let arg := arg ++ m0
        if m2 = '(' then parseArgsLoop fuel (depth + 1) arg raw args rest
        else
          let (args, arg) :=
            if depth = 1 then
              (args ++ [KC.jsTrim (String.mk (arg.take (arg.length - 1)))], ([] : List Char))
            else (args, arg)
          if m2 = ')' then
            if depth - 1 = 0 then (args, raw)
            else parseArgsLoop fuel (depth - 1) arg raw args rest
          else parseArgsLoop fuel depth arg raw args rest

/-- `parseArgs(text)`: leading `\s*\(`, then the delimiter loop. -/
def parseArgs (cs : List Char) : List String × List Char :=
  let ws := cs.takeWhile isJsSpace
  match cs.drop ws.length with
  | '(' :: rest => parseArgsLoop (rest.length + 1) 1 [] (ws ++ ['(']) [] rest
  | _ => ([], [])

/-- Replacement table of a function-like macro: values are `Option` because
a missing argument is JS `undefined`. -/
def replGet (repl : List (String × Option String)) (k : String) : Option String :=
  match repl.find? (fun p => p.1 = k) with
  | some p => p.2
  | none => none

def assocSetO (l : List (String × Option String)) (k : String) (v : Option String) :
    List (String × Option String) :=
  match l with
  | [] => [(k, v)]
  | p :: rest => if p.1 = k then (k, v) :: rest else p :: assocSetO rest k v

def strEndsWith (s suffix : String) : Bool :=
  strStarts suffix.toList.reverse s.toList.reverse

def dropDotsSuffix (s : String) : String :=
  String.mk (s.toList.take (s.length - 3))

/-- `macro.args.forEach((arg, i, all) => ...)`: positional replacements with
the `...`/`name...` variadic forms on the last parameter. -/
def buildReplacements (margs : List String) (args : List String) :
    List (String × Option String) :=
  margs.enum.foldl
    (fun acc p =>
      let i := p.1
      let arg := p.2
      if i = margs.length - 1 && arg = "..." then
        assocSetO acc "__VA_ARGS__" (some (String.intercalate ", " (args.drop i)))
      else if i = margs.length - 1 && strEndsWith arg "..." then
        assocSetO acc (dropDotsSuffix arg) (some (String.intercalate ", " (args.drop i)))
      else assocSetO acc arg (args.get? i))
    []

/-- `insert.replace(/\s*##\s*/g, '')`. -/
def removeHashHash (fuel : Nat) (cs : List Char) : List Char :=
  match fuel with
  | 0 => cs
  | fuel + 1 =>
    match cs with
    | [] => []
    | c :: rest =>
      let ws := cs.takeWhile isJsSpace
      let afterWs := cs.drop ws.length
      if strStarts ['#', '#'] afterWs then
        let tail := (afterWs.drop 2).dropWhile isJsSpace
        removeHashHash fuel tail
      else c :: removeHashHash fuel rest

mutual

/-- `resolve(text, defines, loc)`:
`replace(text, findReplacements(text, defines, loc))`. -/
def resolveF (fuel : Nat) (defines : Defines) (text : String) :
    Except KC.Err String :=
  match fuel with
  | 0 => .error .fuel
  | fuel + 1 => do
    let ms ← findReplacementsGo fuel defines 0 none false text.toList []
    pure (replace text ms)

/-- `findReplacements(text, defines, loc)`: the
`/\w+|(?<!\\)"/g` scan with string-literal tracking; a word that names a
define yields a `MacroInstance` (with argument parsing and substitution for
function-like macros), and `regex.lastIndex` skips the consumed arguments. -/
def findReplacementsGo (fuel : Nat) (defines : Defines) (pos : Nat)
    (prev : Option Char) (inString : Bool) (cs : List Char)
    (acc : List MacroInstance) : Except KC.Err (List MacroInstance) :=
  match fuel with
  | 0 => .error .fuel
  | fuel + 1 =>
    match cs with
    | [] => .ok acc
    | c :: rest =>
      if isWordChar c then
        let w := cs.takeWhile isWordChar
        let word := String.mk w
        let next := cs.drop w.length
        let prevW := some (w.getLastD c)
        if inString then
          findReplacementsGo fuel defines (pos + w.length) prevW inString next acc
        else
          match lookupD defines word with
          | none => findReplacementsGo fuel defines (pos + w.length) prevW inString next acc
          | some mac =>
            match mac.args with
            | none => do
              let val ← resolveF fuel defines mac.value
              findReplacementsGo fuel defines (pos + w.length) prevW inString next
                (acc ++ [⟨word, val, pos⟩])
            | some margs => do
              let (args, rawArgs) := parseArgs next
              let repl := buildReplacements margs args
              let ins1 ← substGo fuel defines repl [] mac.value.toList []
              let ins2 := String.mk (removeHashHash (ins1.length + 1) ins1)
              let ins ← resolveF fuel defines ins2
              findReplacementsGo fuel defines (pos + w.length + rawArgs.length)
                (some (rawArgs.getLastD (w.getLastD c)))
                inString (cs.drop (w.length + rawArgs.length))
                (acc ++ [⟨String.mk (w ++ rawArgs), ins, pos⟩])
      else if c = '"' && prev ≠ some '\\' then
        findReplacementsGo fuel defines (pos + 1) (some c) (!inString) rest acc
      else
        findReplacementsGo fuel defines (pos + 1) (some c) inString rest acc

/-- The big argument-substitution `macro.value(loc).replace(regex, fn)` of
`findReplacements`: alternatives tried in order at each position of the
original body — `,\s*##\s*(__VA_ARGS__)`, `(?<=##)\s*(\w+)\b`,
`\b(\w+)\s*(?=##)`, `(?<!#)#\s*(\w+)\b`, `\b(\w+)\b` — with `prevs` the
reversed original text already scanned (for the lookbehinds and `\b`). -/
def substGo (fuel : Nat) (defines : Defines)
    (repl : List (String × Option String)) (prevs : List Char)
    (cs : List Char) (out : List Char) : Except KC.Err (List Char) :=
  match fuel with
  | 0 => .error .fuel
  | fuel + 1 =>
    match cs with
    | [] => .ok out
    | c :: rest =>
      -- alternative 1: `,\s*##\s*(__VA_ARGS__)`
      let alt1 : Option Nat :=
        if c = ',' then
          let ws1 := rest.takeWhile isJsSpace
          let r1 := rest.drop ws1.length
          if strStarts ['#', '#'] r1 then
            let ws2 := (r1.drop 2).takeWhile isJsSpace
            let r2 := (r1.drop 2).drop ws2.length
            if strStarts "__VA_ARGS__".toList r2 then
              some (1 + ws1.length + 2 + ws2.length + 11)
            else none
          else none
        else none
      match alt1 with
      | some len => do
        let v := replGet repl "__VA_ARGS__"
        let repStr ←
          match v with
          | some v =>
            if v ≠ "" then resolveF fuel defines (", " ++ v)
            else resolveF fuel defines v
          | none => pure (String.mk (cs.take len))
        substGo fuel defines repl ((cs.take len).reverse ++ prevs) (cs.drop len)
          (out ++ repStr.toList)
      | none =>
        -- alternative 2: `(?<=##)\s*(\w+)\b`
        let alt2 : Option (Nat × List Char) :=
          match prevs with
          | '#' :: '#' :: _ =>
            let ws := cs.takeWhile isJsSpace
            let w := (cs.drop ws.length).takeWhile isWordChar
            if w ≠ [] then some (ws.length + w.length, w) else none
          | _ => none
        match alt2 with
        | some (len, w) => do
          let repStr :=
            match replGet repl (String.mk w) with
            | some v => v.toList
            | none => cs.take len
          substGo fuel defines repl ((cs.take len).reverse ++ prevs) (cs.drop len)
            (out ++ repStr)
        | none =>
          -- alternative 3: `\b(\w+)\s*(?=##)`
          let wordBoundary : Bool :=
            match prevs with
            | [] => true
            | p :: _ => !isWordChar p
          let alt3 : Option (Nat × List Char) :=
            if wordBoundary && isWordChar c then
              let w := cs.takeWhile isWordChar
              let ws := (cs.drop w.length).takeWhile isJsSpace
              if strStarts ['#', '#'] ((cs.drop w.length).drop ws.length) then
                some (w.length + ws.length, w)
              else none
            else none
          match alt3 with
          | some (len, w) => do
            let repStr :=
              match replGet repl (String.mk w) with
              | some v => v.toList
              | none => cs.take len
            substGo fuel defines repl ((cs.take len).reverse ++ prevs) (cs.drop len)
              (out ++ repStr)
          | none =>
            -- alternative 4: `(?<!#)#\s*(\w+)\b`
            let alt4 : Option (Nat × List Char) :=
              if c = '#' && (match prevs with | '#' :: _ => false | _ => true) then
                let ws := rest.takeWhile isJsSpace
                let w := (rest.drop ws.length).takeWhile isWordChar
                if w ≠ [] then some (1 + ws.length + w.length, w) else none
              else none
            match alt4 with
            | some (len, w) => do
              let repStr :=
                match replGet repl (String.mk w) with
                | some v => ('"' :: v.toList) ++ ['"']
                | none => cs.take len
              substGo fuel defines repl ((cs.take len).reverse ++ prevs) (cs.drop len)
                (out ++ repStr)
            | none =>
              -- alternative 5: `\b(\w+)\b`
              if wordBoundary && isWordChar c then
                let w := cs.takeWhile isWordChar
                let len := w.length
                match replGet repl (String.mk w) with
                | some v => do
                  let r ← resolveF fuel defines v
                  substGo fuel defines repl ((cs.take len).reverse ++ prevs)
                    (cs.drop len) (out ++ r.toList)
                | none =>
                  substGo fuel defines repl ((cs.take len).reverse ++ prevs)
                    (cs.drop len) (out ++ w)
              else
                substGo fuel defines repl (c :: prevs) rest (out ++ [c])

end

end PP

namespace PP

/-- `text.match(/^\s*#\s*(\w+)\s*(.*)/)` and `.trim()` of the second group:
the directive word and its trimmed value. -/
def directiveValue (text : String) : Option (String × String) :=
  let cs := text.toList.dropWhile isJsSpace
  match cs with
  | '#' :: b =>
    let c := b.dropWhile isJsSpace
    let w := c.takeWhile isWordChar
    if w = [] then none
    else some (String.mk w, KC.jsTrim (String.mk ((c.drop w.length).dropWhile isJsSpace)))
  | _ => none

/-- Find the first `')'` (the lazy `(.*?)\)`; `.` excludes line
terminators). -/
def splitAtFirstRPar : List Char → Option (List Char × List Char)
  | [] => none
  | c :: cs =>
    if c = ')' then some ([], cs)
    else if isLineTerm c then none
    else match splitAtFirstRPar cs with
      | some (inside, after) => some (c :: inside, after)
      | none => none

/-- JS `String.split(',')` (never empty: `""` splits to `[""]`). -/
def splitCommas (cs : List Char) : List (List Char) :=
  match cs with
  | [] => [[]]
  | c :: rest =>
    match splitCommas rest with
    | [] => [[]]
    | g :: gs => if c = ',' then [] :: g :: gs else (c :: g) :: gs

/-- `value.match(/^(\w+)(?:\((.*?)\))?\s*(.*)/)` of the `#define` branch:
name, optional comma-split trimmed argument list, body. -/
def parseDefLine (value : String) : Option (String × Option (List String) × String) :=
  let cs := value.toList
  let w := cs.takeWhile isWordChar
  if w = [] then none
  else
    let rest := cs.drop w.length
    let noArgs : String × Option (List String) × String :=
      (String.mk w, none, String.mk (rest.dropWhile isJsSpace))
    match rest with
    | '(' :: tail =>
      match splitAtFirstRPar tail with
      | some (inside, after) =>
        some (String.mk w,
          some ((splitCommas inside).map (fun a => KC.jsTrim (String.mk a))),
          String.mk (after.dropWhile isJsSpace))
      | none => some noArgs
    | _ => some noArgs

/-- The `#define` directive block of `preprocess` (`preprocessor.ts`,
executed when every scope condition is true): a duplicate of a
still-defined name is skipped; redefining an `#undef`ed name reuses the
existing `Define` object (keeping its old body) and clears `undef`;
otherwise a fresh `Define` is registered. -/
def ppDefine (defines : Defines) (value : String) : Defines :=
  match parseDefLine value with
  | none => defines
  | some (name, args, body) =>
    match lookupD defines name with
    | some existing =>
      if !existing.undef then defines
      else setD defines name { existing with undef := false }
    | none => setD defines name { name := name, value := body, args := args, undef := false }

/-- Processing one `#define ...` source line: directive match plus the
define block (no continuation or comments on the lines of interest, and an
all-true scope stack). -/
def processDefineLine (defines : Defines) (text : String) : Defines :=
  match directiveValue text with
  | some (d, value) => if d = "define" then ppDefine defines value else defines
  | none => defines

/-- A processed `Line`: `text` is `replace(raw, macros)` (computed in the
constructor). -/
structure Line where
  raw : String
  macros : List MacroInstance
deriving DecidableEq, Repr

def Line.text (l : Line) : String := replace l.raw l.macros

/-- `Line.rawPos` on a character offset: walk the (start-sorted) macro list,
clamping an offset inside an expansion to the expansion's raw start
(`earliest`) or raw end, and shifting offsets past it by the length
difference. -/
def rawPosGo (ms : List MacroInstance) (loc : Int) (earliest : Bool) : Int :=
  match ms with
  | [] => loc
  | m :: rest =>
    if (m.start : Int) > loc then loc
    else if loc < (m.start : Int) + (m.insert.length : Int) then
      if earliest then (m.start : Int) else (m.start : Int) + (m.raw.length : Int)
    else rawPosGo rest (loc + (m.raw.length : Int) - (m.insert.length : Int)) earliest

def Line.rawPos (l : Line) (offset : Int) (earliest : Bool) : Int :=
  rawPosGo l.macros offset earliest

/-- Building the `Line` that `preprocess` pushes for a non-directive text
line: `new Line(text, number, uri, findReplacements(text, defines, loc))`. -/
def processTextLine (fuel : Nat) (defines : Defines) (text : String) :
    Except KC.Err Line := do
  let ms ← findReplacementsGo fuel defines 0 none false text.toList []
  pure { raw := text, macros := ms }

end PP

namespace DT

/-! ### `dts.ts`: node identity merge and unique-properties resolution -/

/-- A parsed property (a single-cell `name = <n>;` value suffices for the
modelled merge behaviour). -/
structure DProperty where
  name : String
  value : Int
deriving DecidableEq, Repr

/-- A `NodeEntry`: one textual block attached to a `Node`, carrying its own
property list, the owning file's `priority` and the file-local entry
counter (`entries++`). -/
structure NodeEntry where
  properties : List DProperty
  filePriority : Nat
  number : Nat
deriving DecidableEq, Repr

structure Node where
  name : String
  fullName : String
  path : String
  entries : List NodeEntry
deriving DecidableEq, Repr

/-- The `Node` constructor: `fullName = name@addr`, `path` from the parent
chain (`'/'` for a parentless non-reference node). -/
def mkNode (name : String) (address : Option String) (parent : Option Node) :
    Node :=
  let fullName := match address with | some a => name ++ "@" ++ a | none => name
  match parent with
  | some p =>
    { name := name, fullName := fullName, path := p.path ++ fullName ++ "/",
      entries := [] }
  | none =>
    if !strStarts ['&'] name.toList then
      { name := name, fullName := "/", path := "/", entries := [] }
    else
      { name := name, fullName := fullName, path := fullName, entries := [] }

/-- The `DTSCtx` node table, keyed by path. -/
structure DTSCtx where
  nodes : List (String × Node)
deriving DecidableEq, Repr

def DTSCtx.lookup (ctx : DTSCtx) (path : String) : Option Node :=
  (ctx.nodes.find? (fun p => p.1 = path)).map (·.2)

def DTSCtx.set (ctx : DTSCtx) (path : String) (n : Node) : DTSCtx :=
  ⟨go ctx.nodes⟩
where
  go : List (String × Node) → List (String × Node)
    | [] => [(path, n)]
    | p :: rest => if p.1 = path then (path, n) :: rest else p :: go rest

/-- The `name[@addr] {` node-open block of `Parser.parse` (`dts.ts`): build
the `Node`, reuse the context's node of the same `path` when one exists
(else register the fresh one), and append a new `NodeEntry` carrying this
block's properties.  Returns the updated context and the node. -/
def openNode (ctx : DTSCtx) (name : String) (addr : Option String)
    (parent : Option Node) (priority entryNumber : Nat)
    (props : List DProperty) : DTSCtx × Node :=
  let node0 := mkNode name addr parent
  let node :=
    match ctx.lookup node0.path with
    | some n => n
    | none => node0
  let entry : NodeEntry :=
    { properties := props, filePriority := priority, number := entryNumber }
  let node' := { node with entries := node.entries ++ [entry] }
  (ctx.set node0.path node', node')

/-- The sort key of `get sortedEntries()`:
`1000000 * file.priority + number`. -/
def entryKey (e : NodeEntry) : Nat := 1000000 * e.filePriority + e.number

def insertEntryAsc (e : NodeEntry) : List NodeEntry → List NodeEntry
  | [] => [e]
  | x :: xs => if entryKey e < entryKey x then e :: x :: xs else x :: insertEntryAsc e xs

/-- `get sortedEntries()`: entries in ascending file-priority (then entry
number) order. -/
def Node.sortedEntries (n : Node) : List NodeEntry :=
  n.entries.foldl (fun acc e => insertEntryAsc e acc) []

/-- `props[p.name] = p` on a JS object: first-assignment key order, later
assignment overwrites in place. -/
def propSet (l : List DProperty) (p : DProperty) : List DProperty :=
  match l with
  | [] => [p]
  | q :: rest => if q.name = p.name then p :: rest else q :: propSet rest p

/-- `Node.uniqueProperties` (`dts.ts`): fold all sorted entries' properties
into one name-keyed object, later (higher-priority) entries shadowing
earlier ones; `Object.values` of the result. -/
def Node.uniqueProperties (n : Node) : List DProperty :=
  n.sortedEntries.foldl
    (fun acc e => e.properties.foldl (fun acc p => propSet acc p) acc) []

/-- `Node.property(name)`: `uniqueProperties().find(e => e.name === name)`. -/
def Node.property (n : Node) (name : String) : Option DProperty :=
  n.uniqueProperties.find? (fun p => p.name = name)

end DT

namespace TY

/-! ### `dtsTypes.ts`: binding resolution (`TypeLoader.nodeType`) -/

/-- A loaded binding (`NodeType`): its name, `valid` flag, `bus`/`on-bus`
declarations and the optional child sub-type built from a child binding. -/
inductive NodeType
  | mk (tname : String) (valid : Bool) (bus onBus : Option String)
      (child : Option NodeType)

def NodeType.tname : NodeType → String
  | .mk n _ _ _ _ => n

def NodeType.valid : NodeType → Bool
  | .mk _ v _ _ _ => v

def NodeType.bus : NodeType → Option String
  | .mk _ _ b _ _ => b

def NodeType.onBus : NodeType → Option String
  | .mk _ _ _ o _ => o

def NodeType.child : NodeType → Option NodeType
  | .mk _ _ _ _ c => c

/-- `TypeLoader`: name-keyed lists of same-named bindings plus the shared
fallback `baseType` (an `AbstractNodeType`, whose `valid` is `false`). -/
structure TypeLoader where
  types : List (String × List NodeType)
  baseType : NodeType

/-- `TypeLoader.get`: `[]` when the name is unknown. -/
def TypeLoader.get (l : TypeLoader) (name : String) : List NodeType :=
  match l.types.find? (fun p => p.1 = name) with
  | some p => p.2
  | none => []

/-- The node data `nodeType` consumes: path, name, the `compatible`
property's string array (when present), and the parent's resolved type. -/
structure TNode where
  path : String
  name : String
  compatible : Option (List String)
  parentType : Option NodeType

/-- `node.path.match(/\/cpus\/cpu[^/]*\/$/)`. -/
def cpuPathMatch (path : String) : Bool :=
  match path.toList.reverse with
  | '/' :: rest =>
    let seg := rest.takeWhile (fun c => c ≠ '/')
    strStarts "cpu".toList seg.reverse &&
      strStarts "/cpus/".toList.reverse (rest.drop seg.length)
  | _ => false

/-- `name.replace(/s$/, '')`. -/
def stripTrailingS (s : String) : String :=
  match s.toList.reverse with
  | 's' :: rest => String.mk rest.reverse
  | _ => s

/-- The candidate list built by `getBaseType` inside `nodeType`, in source
order: exact path, compatible strings, node name, name with a trailing `s`
stripped, and `/cpus/cpu` for cpu-path nodes. -/
def candidatesOf (node : TNode) : List String :=
  [node.path] ++ (match node.compatible with | some l => l | none => []) ++
  [node.name, stripTrailingS node.name] ++
  (if cpuPathMatch node.path then ["/cpus/cpu"] else [])

/-- `TypeLoader.nodeType` (`dtsTypes.ts`): first candidate with loaded
bindings, else the parent type's `child` sub-type, else the shared unknown
`baseType`; with several same-named bindings and a known parent type,
prefer the one whose `onBus` matches the parent's `bus`. -/
def nodeType (loader : TypeLoader) (node : TNode) : NodeType :=
  let types :=
    match (candidatesOf node).find? (fun c => (loader.get c).length ≠ 0) with
    | some c => loader.get c
    | none =>
      match node.parentType with
      | some pt =>
        match pt.child with
        | some ch => [ch]
        | none => []
      | none => []
  let types := if types.length = 0 then [loader.baseType] else types
  match node.parentType with
  | some pt =>
    if types.length > 1 then
      match types.find? (fun t => pt.bus = t.onBus) with
      | some t => t
      | none => types.headD loader.baseType
    else types.headD loader.baseType
  | none => types.headD loader.baseType

end TY

/-! ## Claim theorems -/

/-! ### C1: `makeExpr` precedence split -/

/-- The token stream of `A && B || C`. -/
def tksAndOr : List KC.Token :=
  [⟨.VAR, "A"⟩, ⟨.AND, "&&"⟩, ⟨.VAR, "B"⟩, ⟨.OR, "||"⟩, ⟨.VAR, "C"⟩]

/-- C1 (counterexample): on the token list `A && B || C`, `makeExpr` puts
AND at the root (with `B || C` as its right operand), not OR with `A && B`
on the left as claimed: the scan splits at the token of highest
`tokenOrder` rank, and AND ranks above OR there. -/
theorem C1_and_or_root_counterexample :
    KC.makeExpr tksAndOr =
      .ok (.mk .AND [.mk .VAR [] (some ⟨.VAR, "A"⟩),
        .mk .OR [.mk .VAR [] (some ⟨.VAR, "B"⟩),
          .mk .VAR [] (some ⟨.VAR, "C"⟩)] none] none) ∧
    (KC.makeExpr tksAndOr).map KC.Expression.operator = .ok .AND ∧
    KC.Operator.AND ≠ KC.Operator.OR :=
  ⟨rfl, rfl, by decide⟩

/-- C1 (amended): for every token list of the form `A && B || C`, the
resulting tree has AND at the root with the whole `B || C` subtree as its
right operand (OR binds tighter than AND in this parser), and for every
token list of the form `!A && B` the NOT applies to `A` only. -/
theorem C1_amended_and_root (a b c : String) :
    KC.makeExpr [⟨.VAR, a⟩, ⟨.AND, "&&"⟩, ⟨.VAR, b⟩, ⟨.OR, "||"⟩, ⟨.VAR, c⟩] =
      .ok (.mk .AND [.mk .VAR [] (some ⟨.VAR, a⟩),
        .mk .OR [.mk .VAR [] (some ⟨.VAR, b⟩),
          .mk .VAR [] (some ⟨.VAR, c⟩)] none] none) ∧
    KC.makeExpr [⟨.NOT, "!"⟩, ⟨.VAR, a⟩, ⟨.AND, "&&"⟩, ⟨.VAR, b⟩] =
      .ok (.mk .AND [.mk .NOT [.mk .VAR [] (some ⟨.VAR, a⟩)] none,
        .mk .VAR [] (some ⟨.VAR, b⟩)] none) :=
  ⟨rfl, rfl⟩

/-! ### C9: `createExpression` degrades failures to constant false -/

/-- C9: for every non-empty input on which tokenizing or tree construction
fails, `createExpression` returns the constant-false expression, whose
`solve` yields `false` in every context (at any fuel, without touching the
context). -/
theorem C9_createExpression_constant_false (s : String) (e : KC.Err)
    (hne : s ≠ "")
    (hfail : (KC.tokenizeExpression s >>= KC.makeExpr) = .error e) :
    KC.createExpression s = some KC.constFalseExpression ∧
    ∀ (fuel : Nat) (repo : KC.Repo) (ctx : KC.Ctx),
      KC.solveE (fuel + 1) repo KC.constFalseExpression ctx =
        .ok (.bool false, ctx) := by
  constructor
  · unfold KC.createExpression
    rw [if_neg hne, hfail]
  · intro fuel repo ctx
    rfl

/-- C9 (witness): `"&&"` is non-empty, fails tree construction, and is
degraded to the constant-false expression. -/
theorem C9_witness :
    KC.createExpression "&&" = some KC.constFalseExpression ∧
    KC.solveE 1 ⟨[]⟩ KC.constFalseExpression ⟨[], []⟩ =
      .ok (.bool false, ⟨[], []⟩) := by
  have h := C9_createExpression_constant_false "&&"
    (.expressionError "Missing operator") (by decide) (by rfl)
  exact ⟨h.1, h.2 0 ⟨[]⟩ ⟨[], []⟩⟩

/-! ### C6: duplicate `#define` is silently ignored -/

/-- The defines table after `#define X a`. -/
def xDefines1 : PP.Defines := PP.processDefineLine [] "#define X a"

/-- The defines table after `#define X a` and then `#define X b`. -/
def xDefines2 : PP.Defines := PP.processDefineLine xDefines1 "#define X b"

/-- C6: a duplicate `#define` of a still-defined name is silently ignored:
in general the define block leaves the table untouched whenever the parsed
name is already defined without a pending `#undef`, and concretely after
`#define X a` followed by `#define X b` the table still carries the first
body `a`, the second line changing nothing. -/
theorem C6_duplicate_define_ignored :
    (∀ (defines : PP.Defines) (d : PP.Define) (value name : String)
       (args : Option (List String)) (body : String),
       PP.parseDefLine value = some (name, args, body) →
       PP.lookupD defines name = some d →
       d.undef = false →
       PP.ppDefine defines value = defines) ∧
    xDefines2 = xDefines1 ∧
    PP.lookupD xDefines1 "X" = some ⟨"X", "a", none, false⟩ := by
  refine ⟨?_, rfl, rfl⟩
  intro defines d value name args body hparse hlook hundef
  simp [PP.ppDefine, hparse, hlook, hundef]

/-- C6 (witness): the general no-op clause applied to the concrete
duplicate line `#define X b` over the table holding `X = a`. -/
theorem C6_witness : PP.ppDefine xDefines1 "X b" = xDefines1 :=
  C6_duplicate_define_ignored.1 xDefines1 ⟨"X", "a", none, false⟩
    "X b" "X" none "b" rfl rfl rfl

/-! ### C3: node identity merge and unique-properties shadowing -/

/-- Board file (priority 0): open the root, then `node@0 { a = <1>; }`. -/
def c3Board1 : DT.DTSCtx × DT.Node := DT.openNode ⟨[]⟩ "" none none 0 0 []

def c3Board2 : DT.DTSCtx × DT.Node :=
  DT.openNode c3Board1.1 "node" (some "0") (some c3Board1.2) 0 1 [⟨"a", 1⟩]

/-- Overlay (priority 1): reopen the root, then `node@0 { b = <2>; a = <3>; }`. -/
def c3Overlay1 : DT.DTSCtx × DT.Node :=
  DT.openNode c3Board2.1 "" none none 1 0 []

def c3Overlay2 : DT.DTSCtx × DT.Node :=
  DT.openNode c3Overlay1.1 "node" (some "0") (some c3Overlay1.2) 1 1
    [⟨"b", 2⟩, ⟨"a", 3⟩]

/-- Same scenario without the overlay's `a = <3>` shadow. -/
def c3Overlay2' : DT.DTSCtx × DT.Node :=
  DT.openNode c3Overlay1.1 "node" (some "0") (some c3Overlay1.2) 1 1 [⟨"b", 2⟩]

/-- C3: both textual blocks land on the single node table binding at path
`/node@0/` — one `Node` with one `NodeEntry` per file, in file order — the
unique-properties merge exposes both `a` and `b`; with the overlay's
`a = <3>` the merged `a` is `3` (the higher-priority overlay file wins)
while the board entry's own property list still holds `a = <1>`. -/
theorem C3_node_merge_unique_properties :
    ((c3Overlay2.1).nodes.filter (fun p => p.1 = "/node@0/")).length = 1 ∧
    ((c3Overlay2.1).lookup "/node@0/").map
        (fun n => n.entries.map (fun e => e.filePriority)) = some [0, 1] ∧
    ((c3Overlay2'.1).lookup "/node@0/").map DT.Node.uniqueProperties =
      some [⟨"a", 1⟩, ⟨"b", 2⟩] ∧
    ((c3Overlay2.1).lookup "/node@0/").map DT.Node.uniqueProperties =
      some [⟨"a", 3⟩, ⟨"b", 2⟩] ∧
    ((c3Overlay2.1).lookup "/node@0/").bind (fun n => n.property "a") =
      some ⟨"a", 3⟩ ∧
    ((c3Overlay2.1).lookup "/node@0/").map
        (fun n => n.entries.head?.map (fun e => e.properties)) =
      some (some [⟨"a", 1⟩]) :=
  ⟨rfl, rfl, rfl, rfl, rfl, rfl⟩

/-! ### C7: function-like macro expansion and `rawPos` back-mapping -/

/-- The defines table after `#define ADD(a,b) ((a)+(b))`. -/
def addDefines : PP.Defines := PP.processDefineLine [] "#define ADD(a,b) ((a)+(b))"

/-- The processed line for `X = ADD(1,2);` under `addDefines`. -/
def addLine : PP.Line := ⟨"X = ADD(1,2);", [⟨"ADD(1,2)", "((1)+(2))", 4⟩]⟩

/-- C7: `#define ADD(a,b) ((a)+(b))` followed by `X = ADD(1,2);` produces
the processed text `X = ((1)+(2));`, with a single expansion span replacing
the raw `ADD(1,2)` at offset 4; every offset inside the expansion
(`4 ≤ o < 4 + 9`) maps back to the raw span's start 4 under the earliest
tie-break and to its end 12 otherwise — never into the expansion text. -/
theorem C7_expansion_rawPos :
    addDefines = [("ADD", ⟨"ADD", "((a)+(b))", some ["a", "b"], false⟩)] ∧
    PP.processTextLine 100 addDefines "X = ADD(1,2);" = .ok addLine ∧
    addLine.text = "X = ((1)+(2));" ∧
    ("X = ADD(1,2);".toList.drop 4).take 8 = "ADD(1,2)".toList ∧
    (∀ o : Int, 4 ≤ o → o < 4 + 9 →
      addLine.rawPos o true = 4 ∧ addLine.rawPos o false = 12) := by
  refine ⟨rfl, rfl, rfl, rfl, ?_⟩
  intro o h1 h2
  have hins : ("((1)+(2))" : String).length = 9 := rfl
  have hraw : ("ADD(1,2)" : String).length = 8 := rfl
  constructor <;>
  · simp only [PP.Line.rawPos, addLine, PP.rawPosGo, hins, hraw]
    rw [if_neg (by push_cast; omega), if_pos (by push_cast; omega)]
    norm_num

/-- C7 (witness): the mapping at the concrete offset 7 (inside the
expansion span). -/
theorem C7_witness :
    addLine.rawPos 7 true = 4 ∧ addLine.rawPos 7 false = 12 :=
  (C7_expansion_rawPos.2.2.2.2) 7 (by norm_num) (by norm_num)

/-! ### C8: binding fallback to the parent's child sub-type -/

def tyChild : TY.NodeType := .mk "child-binding" true none none none

def tyParent : TY.NodeType := .mk "parent-binding" true (some "spi") none (some tyChild)

def tyCpu : TY.NodeType := .mk "/cpus/cpu" true none none none

def tyUnknown : TY.NodeType := .mk "unknown" false none none none

def c8Loader : TY.TypeLoader := { types := [("/cpus/cpu", [tyCpu])], baseType := tyUnknown }

/-- A node under `/cpus` with no matching path/compatible/name binding. -/
def c8CpuNode : TY.TNode :=
  { path := "/cpus/cpu0/", name := "cpu0", compatible := none,
    parentType := some tyParent }

/-- A plain node with no matching path/compatible/name binding. -/
def c8PlainNode : TY.TNode :=
  { path := "/soc/foo@1/", name := "foo", compatible := none,
    parentType := some tyParent }

/-- C8 (counterexample): a node at `/cpus/cpu0/` whose four claimed
candidates (exact path, compatible strings [absent], node name, name with
trailing `s` stripped) all miss, whose parent's type declares a `child`
sub-type, still does not resolve to that child type: `nodeType` also tries
the fifth candidate `/cpus/cpu` for cpu-path nodes, and a binding of that
name wins. -/
theorem C8_counterexample :
    TY.nodeType c8Loader c8CpuNode = tyCpu ∧
    c8Loader.get "/cpus/cpu0/" = [] ∧
    c8CpuNode.compatible = none ∧
    c8Loader.get "cpu0" = [] ∧
    TY.stripTrailingS "cpu0" = "cpu0" ∧
    c8CpuNode.parentType.map TY.NodeType.child = some (some tyChild) ∧
    TY.nodeType c8Loader c8CpuNode ≠ tyChild ∧
    TY.nodeType c8Loader c8CpuNode ≠ c8Loader.baseType := by
  refine ⟨rfl, rfl, rfl, rfl, rfl, rfl, ?_, ?_⟩
  · intro h
    have h' : TY.NodeType.mk "/cpus/cpu" true none none none =
        TY.NodeType.mk "child-binding" true none none none := h
    injection h' with h1
    exact absurd h1 (by decide)
  · intro h
    have h' : TY.NodeType.mk "/cpus/cpu" true none none none =
        TY.NodeType.mk "unknown" false none none none := h
    injection h' with h1
    exact absurd h1 (by decide)

/-- C8 (amended): when none of the candidates — exact path, compatible
strings, node name, stripped name, and the additional `/cpus/cpu` candidate
for cpu-path nodes — matches a loaded binding and the parent's resolved
type declares a `child` sub-type, the node resolves to that child type
(in particular not to the shared unknown fallback whenever the child type
differs from it). -/
theorem C8_amended_child_fallback (loader : TY.TypeLoader) (node : TY.TNode)
    (pt ch : TY.NodeType)
    (hempty : ∀ c ∈ TY.candidatesOf node, loader.get c = [])
    (hpt : node.parentType = some pt) (hch : pt.child = some ch) :
    TY.nodeType loader node = ch := by
  unfold TY.nodeType
  have hfind : (TY.candidatesOf node).find?
      (fun c => decide ((loader.get c).length ≠ 0)) = none := by
    apply List.find?_eq_none.mpr
    intro c hc
    simp [hempty c hc]
  rw [hfind, hpt]
  dsimp only
  rw [hch]
  rfl

/-- C8 (witness): the amended fallback at the concrete plain node. -/
theorem C8_witness : TY.nodeType c8Loader c8PlainNode = tyChild := by
  apply C8_amended_child_fallback c8Loader c8PlainNode tyParent tyChild ?_ rfl rfl
  intro c hc
  have : TY.candidatesOf c8PlainNode = ["/soc/foo@1/", "foo", "foo"] := rfl
  rw [this] at hc
  fin_cases hc <;> rfl

/-! ### C2: dependency gate precedes the override rule -/

def c2EntryA : KC.ConfigEntry :=
  { etype := some .bool, text := some "A", dependencies := ["B"], selects := [],
    implys := [], defaults := [], ranges := [], scope := .rootS }

def c2CfgA : KC.Config := { name := "A", entries := [c2EntryA] }

def c2Repo : KC.Repo := ⟨[("A", c2CfgA)]⟩

/-- A context holding an active override `A = y`. -/
def c2Ctx : KC.Ctx := ⟨[⟨"A", "y", none⟩], []⟩

/-- C2 (counterexample): config `A` (bool, prompt `A`, `depends on B` with
`B` unknown) with an active override `A = y` evaluates to `false` — the
dependency gate fires before the override is consulted — even though the
resolved override value is `true`. -/
theorem C2_counterexample :
    c2Ctx.overrides.find? (fun o => o.name = c2CfgA.name) =
      some ⟨"A", "y", none⟩ ∧
    c2CfgA.resolveValueString "y" = .bool true ∧
    KC.configEvaluate 100 c2Repo c2CfgA c2Ctx =
      .ok (.bool false, ⟨[⟨"A", "y", none⟩], [("A", .bool false)]⟩) ∧
    (KC.ConfigValue.bool false) ≠ (KC.ConfigValue.bool true) :=
  ⟨rfl, rfl, rfl, by decide⟩

/-- C2 (amended): `Config.evaluate` applies its rules in the order
cache > dependency-gate > active-typed-entry gate > override > default >
select > choice: whenever the symbol is not cached and its dependency gate
fails (a truthy missing dependency), evaluation registers and returns
`false` — even when the context holds an active override for the symbol. -/
theorem C2_amended_dependency_gate_first (fuel : Nat) (repo : KC.Repo)
    (c : KC.Config) (ctx ctx₂ : KC.Ctx) (d : String) (ov : KC.COverride)
    (hcache : ctx.resolve c.name = none)
    (hov : ctx.overrides.find? (fun o => o.name = c.name) = some ov)
    (hdep : KC.missingDependencyE fuel repo c ctx = .ok (some d, ctx₂))
    (hd : d ≠ "") :
    KC.configEvaluate (fuel + 1) repo c ctx =
      .ok (.bool false, ctx₂.register c.name (.bool false)) := by
  unfold KC.configEvaluate
  rw [hcache]
  dsimp only
  rw [hdep]
  dsimp only [bind, Except.bind]
  have ht : KC.truthyStrOpt (some d) = true := by
    simp [KC.truthyStrOpt, hd]
  rw [ht]
  rfl

/-- C2 (witness): the amended rule at the concrete `A`-depends-on-`B`
scenario with the active override `A = y`. -/
theorem C2_witness :
    KC.configEvaluate 100 c2Repo c2CfgA c2Ctx =
      .ok (.bool false, c2Ctx.register "A" (.bool false)) :=
  C2_amended_dependency_gate_first 99 c2Repo c2CfgA c2Ctx c2Ctx "B"
    ⟨"A", "y", none⟩ rfl rfl rfl (by decide)

/-! ### C5: memoization holds except in the choice branch -/

def c5Choice : KC.ChoiceData :=
  { name := "CH", choices := ["A"], defaults := [], optional := false }

def c5EntryA : KC.ConfigEntry :=
  { etype := some .bool, text := some "A", dependencies := [], selects := [],
    implys := [], defaults := [], ranges := [], scope := .choiceS c5Choice .rootS }

def c5CfgA : KC.Config := { name := "A", entries := [c5EntryA] }

def c5Repo : KC.Repo := ⟨[("A", c5CfgA)]⟩

def c5Ctx : KC.Ctx := ⟨[], []⟩

/-- The context after evaluating `A` in the choice scenario: the scope ids
are memoized but `A` itself is not. -/
def c5CtxOut : KC.Ctx :=
  ⟨[], [("root(ROOT)", .bool true), ("root(ROOT)::choice(CH)", .bool true)]⟩

/-- C5 (counterexample): evaluating the sole member `A` of a non-optional
choice resolves it via the choice-scope rule to `true`, but the result is
not registered in the context's memoization map under `A` — the claim's
"including the choice-scope rule" fails. -/
theorem C5_counterexample :
    KC.configEvaluate 100 c5Repo c5CfgA c5Ctx = .ok (.bool true, c5CtxOut) ∧
    c5CtxOut.resolve "A" = none :=
  ⟨rfl, rfl⟩

/-- C5 (amended): a cached symbol is returned as-is (no recomputation, no
context change); every branch of `Config.evaluate` registers its result
except the choice-scope branch, which returns `true` with the context left
exactly as the chosen-scope computation produced it (no `register` call),
so a second evaluation recomputes it (yielding the same value). -/
theorem C5_amended_cache_except_choice :
    (∀ (fuel : Nat) (repo : KC.Repo) (c : KC.Config) (ctx : KC.Ctx)
       (v : KC.ConfigValue),
      ctx.resolve c.name = some v →
      KC.configEvaluate (fuel + 1) repo c ctx = .ok (v, ctx)) ∧
    (∀ (fuel : Nat) (repo : KC.Repo) (c : KC.Config)
       (ctx ctx₂ ctx₃ ctx₄ ctx₅ ctx₆ : KC.Ctx) (e0 : KC.ConfigEntry)
       (cd : KC.ChoiceData) (par : KC.KScope),
      ctx.resolve c.name = none →
      KC.missingDependencyE fuel repo c ctx = .ok (none, ctx₂) →
      KC.entriesSomeTypeActive fuel repo c.entries ctx₂ = .ok (true, ctx₃) →
      ctx₃.overrides.find? (fun o => o.name = c.name) = none →
      KC.defaultValueE fuel repo c ctx₃ = .ok (none, ctx₄) →
      c.ctype = some .bool →
      KC.selectorTopE fuel repo c ctx₄ = .ok (none, ctx₅) →
      c.entries.head? = some e0 →
      e0.scope = .choiceS cd par →
      KC.chosenE fuel repo cd ctx₅ = .ok (some c.name, ctx₆) →
      KC.configEvaluate (fuel + 1) repo c ctx = .ok (.bool true, ctx₆)) := by
  constructor
  · intro fuel repo c ctx v hcache
    unfold KC.configEvaluate
    rw [hcache]
  · intro fuel repo c ctx ctx₂ ctx₃ ctx₄ ctx₅ ctx₆ e0 cd par
      hcache hdep hact hov hdflt hty hsel hhead hscope hchosen
    simp only [KC.configEvaluate, hcache, hdep, hact, hov, hdflt, hty, hsel,
      hhead, hscope, hchosen, KC.truthyStrOpt, bind, Except.bind,
      Bool.not_true, Option.isSome_none, Bool.false_eq_true, ite_false,
      ite_true, ne_eq]
    simp

/-- C5 (witness): both amended clauses at concrete inputs — the cache hit
returns the stored value unchanged, and the concrete choice scenario
reaches the non-registering branch. -/
theorem C5_witness :
    KC.configEvaluate 1 c5Repo c5CfgA ⟨[], [("A", .bool true)]⟩ =
      .ok (.bool true, ⟨[], [("A", .bool true)]⟩) ∧
    KC.configEvaluate 100 c5Repo c5CfgA c5Ctx = .ok (.bool true, c5CtxOut) :=
  ⟨C5_amended_cache_except_choice.1 0 c5Repo c5CfgA ⟨[], [("A", .bool true)]⟩
      (.bool true) rfl,
    C5_amended_cache_except_choice.2 99 c5Repo c5CfgA c5Ctx c5Ctx c5CtxOut
      c5CtxOut c5CtxOut c5CtxOut c5EntryA c5Choice .rootS
      rfl rfl rfl rfl rfl rfl rfl rfl rfl rfl⟩

/-! ### C10: absent vs unparseable `if` conditions -/

/-- C10: `createExpression` returns `undefined` (not a constant-false
expression) on empty input; an `IfScope` whose condition text is absent
evaluates to exactly its parent's evaluation (registered under the scope
id), whereas one whose non-empty condition fails to parse evaluates
`false` without consulting the parent. -/
theorem C10_if_scope_conditions (fuel : Nat) (repo : KC.Repo) (ctx : KC.Ctx)
    (parent : KC.KScope) (s : String) (e : KC.Err) :
    KC.createExpression "" = none ∧
    (ctx.resolve (KC.KScope.ifS "" parent).id = none →
      KC.scopeEvaluate (fuel + 3) repo (.ifS "" parent) ctx =
        (do
          let (pr, ctx') ← KC.scopeEvaluate (fuel + 2) repo parent ctx
          .ok (pr, ctx'.register (KC.KScope.ifS "" parent).id (.bool pr)))) ∧
    (s ≠ "" → (KC.tokenizeExpression s >>= KC.makeExpr) = .error e →
      ctx.resolve (KC.KScope.ifS s parent).id = none →
      KC.scopeEvaluate (fuel + 3) repo (.ifS s parent) ctx =
        .ok (false, ctx.register (KC.KScope.ifS s parent).id (.bool false))) := by
  refine ⟨rfl, ?_, ?_⟩
  · intro hcache
    unfold KC.scopeEvaluate
    rw [hcache]
    rfl
  · intro hne hfail hcache
    have hce : KC.createExpression s = some KC.constFalseExpression := by
      unfold KC.createExpression
      rw [if_neg hne, hfail]
    unfold KC.scopeEvaluate
    rw [hcache]
    dsimp only
    unfold KC.scopeResolve
    dsimp only
    rw [hce]
    dsimp only [bind, Except.bind]
    rw [show KC.solveE (fuel + 1) repo KC.constFalseExpression ctx =
      .ok (.bool false, ctx) from rfl]
    rfl

/-- C10 (witness): both clauses at the root-parented scopes with the
unparseable condition `&&`, over the empty context. -/
theorem C10_witness :
    KC.scopeEvaluate 3 ⟨[]⟩ (.ifS "" .rootS) ⟨[], []⟩ =
      (do
        let (pr, ctx') ← KC.scopeEvaluate 2 ⟨[]⟩ KC.KScope.rootS ⟨[], []⟩
        .ok (pr, ctx'.register (KC.KScope.ifS "" KC.KScope.rootS).id (.bool pr))) ∧
    KC.scopeEvaluate 3 ⟨[]⟩ (.ifS "&&" .rootS) ⟨[], []⟩ =
      .ok (false, KC.Ctx.register ⟨[], []⟩
        (KC.KScope.ifS "&&" KC.KScope.rootS).id (.bool false)) :=
  ⟨(C10_if_scope_conditions 0 ⟨[]⟩ ⟨[], []⟩ .rootS "&&"
      (.expressionError "Missing operator")).2.1 rfl,
    (C10_if_scope_conditions 0 ⟨[]⟩ ⟨[], []⟩ .rootS "&&"
      (.expressionError "Missing operator")).2.2 (by decide) rfl rfl⟩

/-! ### C4: the bounded dependency auto-fix search -/

/-- Helper for C4: the `forEach` over a two-replacement satisfying
assignment with an empty `.conf` and dependency-free configs appends
exactly the two override entries and leaves the context unchanged. -/
theorem replLoopP_two (fuel : Nat)
    (recur : String → KC.Ctx → Except KC.Err (List KC.COverride × KC.Ctx))
    (repo : KC.Repo) (ctx : KC.Ctx) (c1 c2 : KC.Config) (v1 v2 : String)
    (entries : List KC.COverride)
    (hl1 : repo.lookup c1.name = some c1)
    (hl2 : repo.lookup c2.name = some c2)
    (hm1 : KC.missingDependencyE fuel repo c1 ctx = .ok (none, ctx))
    (hm2 : KC.missingDependencyE fuel repo c2 ctx = .ok (none, ctx)) :
    KC.replLoopP fuel recur repo [] [(c1.name, v1), (c2.name, v2)] entries ctx =
      .ok (entries ++ [⟨c1.name, v1, none⟩] ++ [⟨c2.name, v2, none⟩], ctx) := by
  simp [KC.replLoopP, KC.replProcessP, hl1, hl2, hm1, hm2, bind, Except.bind]

/-- Helper for C4: over two variables, if every bitmap in the remaining
window solves cleanly (no context mutation), `b0` in the window solves
truthy, and every earlier bitmap in the window solves falsy, then the
enumeration stops at `b0` and returns exactly its two override entries. -/
theorem bitmapGo_first (fuel : Nat)
    (recur : String → KC.Ctx → Except KC.Err (List KC.COverride × KC.Ctx))
    (repo : KC.Repo) (tokens : List KC.Token) (c1 c2 : KC.Config)
    (ctx : KC.Ctx)
    (hl1 : repo.lookup c1.name = some c1)
    (hl2 : repo.lookup c2.name = some c2)
    (hm1 : KC.missingDependencyE fuel repo c1 ctx = .ok (none, ctx))
    (hm2 : KC.missingDependencyE fuel repo c2 ctx = .ok (none, ctx)) :
    ∀ (count bitmap b0 : Nat) (v0 : KC.ConfigValue),
    bitmap ≤ b0 → b0 < bitmap + count →
    (KC.makeExpr (KC.replaceTokens (KC.replacementsOf [c1, c2] b0)
        tokens)).bind (fun ex => KC.solveE fuel repo ex ctx) = .ok (v0, ctx) →
    KC.truthy v0 = true →
    (∀ b, bitmap ≤ b → b < bitmap + count →
      ∃ v, (KC.makeExpr (KC.replaceTokens (KC.replacementsOf [c1, c2] b)
          tokens)).bind (fun ex => KC.solveE fuel repo ex ctx) = .ok (v, ctx)) →
    (∀ b, bitmap ≤ b → b < b0 → ∀ v,
      (KC.makeExpr (KC.replaceTokens (KC.replacementsOf [c1, c2] b)
          tokens)).bind (fun ex => KC.solveE fuel repo ex ctx) = .ok (v, ctx) →
      KC.truthy v = false) →
    KC.bitmapGo fuel recur repo [] tokens [c1, c2] count bitmap ctx =
      .ok ([⟨c1.name, if b0.testBit 0 then "y" else "n", none⟩,
            ⟨c2.name, if b0.testBit 1 then "y" else "n", none⟩], ctx) := by
  intro count
  induction count with
  | zero =>
    intro bitmap b0 v0 hb1 hb2 _ _ _ _
    omega
  | succ n ih =>
    intro bitmap b0 v0 hb1 hb2 hstep0 htv0 hall hmin
    obtain ⟨v, hv⟩ := hall bitmap (le_refl _) (by omega)
    rcases hmk : KC.makeExpr (KC.replaceTokens (KC.replacementsOf [c1, c2]
        bitmap) tokens) with e | ex
    · rw [hmk] at hv
      simp [Except.bind] at hv
    · rw [hmk] at hv
      simp only [Except.bind] at hv
      rcases Nat.eq_or_lt_of_le hb1 with hbe | hblt
      · -- bitmap = b0: the first satisfying assignment is reached
        subst hbe
        rw [hmk] at hstep0
        simp only [Except.bind] at hstep0
        have hv0 : v = v0 := by
          rw [hstep0] at hv
          injection hv with h
          exact ((Prod.mk.injEq _ _ _ _ ▸ h).1).symm
        have htv : KC.truthy v = true := by rw [hv0]; exact htv0
        have hrepl : KC.replacementsOf [c1, c2] bitmap =
            [(c1.name, if bitmap.testBit 0 then "y" else "n"),
             (c2.name, if bitmap.testBit 1 then "y" else "n")] := rfl
        simp only [KC.bitmapGo, hmk, bind, Except.bind, hv, htv, if_true]
        rw [hrepl]
        simpa using replLoopP_two fuel recur repo ctx c1 c2
          (if bitmap.testBit 0 then "y" else "n")
          (if bitmap.testBit 1 then "y" else "n") [] hl1 hl2 hm1 hm2
      · -- bitmap < b0: this assignment solves falsy, continue
        have htv : KC.truthy v = false := by
          have := hmin bitmap (le_refl _) hblt v
          apply this
          rw [hmk]
          simp only [Except.bind]
          exact hv
        have hres := ih (bitmap + 1) b0 v0 (by omega) (by omega) hstep0 htv0
          (fun b h1 h2 => hall b (by omega) (by omega))
          (fun b h1 h2 => hmin b (by omega) h2)
        simp only [KC.bitmapGo, hmk, bind, Except.bind, hv, htv,
          Bool.false_eq_true, if_false]
        exact hres

/-- C4: the auto-fix search enumerates the `2^n` assignments only when the
variable count is strictly below 4: with four or more collected variables
(e.g. five distinct boolean symbols) it returns no overrides at all, while
with exactly two collected variables — each interned, prompting and
dependency-free — it returns the override pair built from the first
satisfying assignment whenever some assignment solves the expression
truthy. -/
theorem C4_dependency_autofix_bounds :
    (∀ (fuel : Nat) (repo : KC.Repo) (conf : List KC.COverride) (dep : String)
       (ctx : KC.Ctx) (tokens : List KC.Token),
      KC.tokenizeExpression dep = .ok tokens →
      4 ≤ (KC.collectVariables repo tokens).length →
      KC.getDependencyOverridesE (fuel + 1) repo conf dep ctx = .ok ([], ctx)) ∧
    (∀ (fuel : Nat) (repo : KC.Repo) (dep : String) (ctx : KC.Ctx)
       (tokens : List KC.Token) (c1 c2 : KC.Config) (b0 : Nat)
       (v0 : KC.ConfigValue),
      KC.tokenizeExpression dep = .ok tokens →
      KC.collectVariables repo tokens = [c1, c2] →
      repo.lookup c1.name = some c1 →
      repo.lookup c2.name = some c2 →
      KC.missingDependencyE fuel repo c1 ctx = .ok (none, ctx) →
      KC.missingDependencyE fuel repo c2 ctx = .ok (none, ctx) →
      b0 < 4 →
      (KC.makeExpr (KC.replaceTokens (KC.replacementsOf [c1, c2] b0)
          tokens)).bind (fun ex => KC.solveE fuel repo ex ctx) =
        .ok (v0, ctx) →
      KC.truthy v0 = true →
      (∀ b, b < 4 →
        ∃ v, (KC.makeExpr (KC.replaceTokens (KC.replacementsOf [c1, c2] b)
            tokens)).bind (fun ex => KC.solveE fuel repo ex ctx) =
          .ok (v, ctx)) →
      (∀ b, b < b0 → ∀ v,
        (KC.makeExpr (KC.replaceTokens (KC.replacementsOf [c1, c2] b)
            tokens)).bind (fun ex => KC.solveE fuel repo ex ctx) =
          .ok (v, ctx) →
        KC.truthy v = false) →
      KC.getDependencyOverridesE (fuel + 1) repo [] dep ctx =
        .ok ([⟨c1.name, if b0.testBit 0 then "y" else "n", none⟩,
              ⟨c2.name, if b0.testBit 1 then "y" else "n", none⟩], ctx)) := by
  constructor
  · intro fuel repo conf dep ctx tokens htok hge
    have hnlt : ¬ ((KC.collectVariables repo tokens).length < 4) := by omega
    simp [KC.getDependencyOverridesE, htok, hnlt]
  · intro fuel repo dep ctx tokens c1 c2 b0 v0 htok hvars hl1 hl2 hm1 hm2
      hb0 hstep0 htv0 hall hmin
    have hres := bitmapGo_first fuel
      (KC.getDependencyOverridesE fuel repo []) repo tokens c1 c2 ctx
      hl1 hl2 hm1 hm2 (2 ^ 2) 0 b0 v0 (Nat.zero_le _) (by omega) hstep0 htv0
      (fun b h1 h2 => hall b (by omega))
      (fun b h1 h2 => hmin b h2)
    simp only [KC.getDependencyOverridesE, htok, hvars]
    simpa [hvars] using hres

def c4Bool (n : String) : KC.Config :=
  { name := n,
    entries := [{ etype := some .bool, text := some n, dependencies := [],
                  selects := [], implys := [], defaults := [], ranges := [],
                  scope := .rootS }] }

def c4Repo5 : KC.Repo :=
  ⟨[("Q1", c4Bool "Q1"), ("Q2", c4Bool "Q2"), ("Q3", c4Bool "Q3"),
    ("Q4", c4Bool "Q4"), ("Q5", c4Bool "Q5")]⟩

def c4Repo2 : KC.Repo := ⟨[("FOO", c4Bool "FOO"), ("BAR", c4Bool "BAR")]⟩

def c4Ctx : KC.Ctx := ⟨[], []⟩

def c4Tks5 : List KC.Token :=
  [⟨.VAR, "Q1"⟩, ⟨.AND, "&&"⟩, ⟨.VAR, "Q2"⟩, ⟨.AND, "&&"⟩, ⟨.VAR, "Q3"⟩,
   ⟨.AND, "&&"⟩, ⟨.VAR, "Q4"⟩, ⟨.AND, "&&"⟩, ⟨.VAR, "Q5"⟩]

def c4Tks2 : List KC.Token :=
  [⟨.VAR, "FOO"⟩, ⟨.AND, "&&"⟩, ⟨.NOT, "!"⟩, ⟨.VAR, "BAR"⟩]

/-- C4 (witness): the cap clause on a five-variable dependency and the
two-variable clause on `FOO && !BAR` (satisfied by `FOO=y, BAR=n`). -/
theorem C4_witness :
    KC.getDependencyOverridesE 11 c4Repo5 [] "Q1 && Q2 && Q3 && Q4 && Q5"
      c4Ctx = .ok ([], c4Ctx) ∧
    KC.getDependencyOverridesE 11 c4Repo2 [] "FOO && !BAR" c4Ctx =
      .ok ([⟨"FOO", if (1 : Nat).testBit 0 then "y" else "n", none⟩,
            ⟨"BAR", if (1 : Nat).testBit 1 then "y" else "n", none⟩], c4Ctx) :=
  ⟨C4_dependency_autofix_bounds.1 10 c4Repo5 [] "Q1 && Q2 && Q3 && Q4 && Q5"
      c4Ctx c4Tks5 rfl (by decide),
    C4_dependency_autofix_bounds.2 10 c4Repo2 "FOO && !BAR" c4Ctx c4Tks2
      (c4Bool "FOO") (c4Bool "BAR") 1 (.bool true)
      rfl rfl rfl rfl rfl rfl (by omega) rfl rfl
      (by
        intro b hb
        interval_cases b
        · exact ⟨.bool false, rfl⟩
        · exact ⟨.bool true, rfl⟩
        · exact ⟨.bool false, rfl⟩
        · exact ⟨.bool false, rfl⟩)
      (by
        intro b hb v hv
        interval_cases b
        have : v = KC.ConfigValue.bool false := by
          have h0 : (KC.makeExpr (KC.replaceTokens (KC.replacementsOf
              [c4Bool "FOO", c4Bool "BAR"] 0) c4Tks2)).bind
              (fun ex => KC.solveE 10 c4Repo2 ex c4Ctx) =
              .ok (KC.ConfigValue.bool false, c4Ctx) := rfl
          rw [h0] at hv
          injection hv with h
          exact ((Prod.mk.injEq _ _ _ _ ▸ h).1).symm
        rw [this]
        rfl)⟩
